import Mathlib

/-!
Shallow embedding of the justack-dev/typescript-sdk core: the WebSocket
connection manager (src/websocket/connection.ts), the Session correlation
engine (resources/session.ts), and the input/response contract
(src/types/inputs.ts).  JavaScript `Map`s are embedded as insertion-ordered
association lists, promises as settle-once outcome maps, and the event-driven
handlers as step functions on explicit state records.
-/

namespace Justack

/-! ### Association lists (JS `Map` semantics: insertion order, unique keys) -/

/-- Lookup the first binding of a key in an association list. -/
def lookupA {α β : Type} [DecidableEq α] (k : α) : List (α × β) → Option β
  | [] => none
  | (k', v) :: rest => if k = k' then some v else lookupA k rest

/-- Remove the first binding of a key (JS `Map.delete`). -/
def eraseA {α β : Type} [DecidableEq α] (k : α) : List (α × β) → List (α × β)
  | [] => []
  | (k', v) :: rest => if k = k' then rest else (k', v) :: eraseA k rest

/-- JS `Map.set`: replace in place when the key exists, append otherwise. -/
def setA {α β : Type} [DecidableEq α] (k : α) (v : β) : List (α × β) → List (α × β)
  | [] => [(k, v)]
  | (k', v') :: rest => if k = k' then (k, v) :: rest else (k', v') :: setA k v rest

/-- Settle-once write, the behaviour of resolving/rejecting a JS promise:
a promise that already has an outcome keeps it. -/
def settle {α β : Type} [DecidableEq α] (k : α) (v : β) (m : List (α × β)) : List (α × β) :=
  match lookupA k m with
  | some _ => m
  | none => setA k v m

/-- Settling every key of a list, as the rejection loops over pending maps do. -/
def settleAll {α β γ : Type} [DecidableEq α] (v : β) (pend : List (α × γ))
    (m : List (α × β)) : List (α × β) :=
  pend.foldl (fun acc kv => settle kv.1 v acc) m

/-! ### JavaScript JSON values and `JSON.parse`

`Session.handleResponse` calls the platform builtin `JSON.parse` on the
response content and falls back to the raw string when parsing throws.  The
builtin is embedded as a fuel-bounded recursive-descent parser over the JSON
grammar; number tokens keep their lexeme (their numeric value is never
inspected by the SDK). -/

/-- A JavaScript value produced by `JSON.parse`. -/
inductive Json : Type
  | null : Json
  | bool (b : Bool) : Json
  | num (lexeme : String) : Json
  | str (s : String) : Json
  | arr (items : List Json) : Json
  | obj (fields : List (String × Json)) : Json

/-- JSON insignificant whitespace. -/
def isJsonWs (c : Char) : Bool :=
  c == ' ' || c == '\t' || c == '\n' || c == '\r'

/-- Drop leading JSON whitespace. -/
def skipWs (cs : List Char) : List Char :=
  cs.dropWhile isJsonWs

/-- Consume an expected literal character sequence. -/
def stripLit : List Char → List Char → Option (List Char)
  | [], cs => some cs
  | l :: ls, c :: cs => if c = l then stripLit ls cs else none
  | _ :: _, [] => none

/-- Value of a hexadecimal digit. -/
def hexVal (c : Char) : Option Nat :=
  if '0' ≤ c ∧ c ≤ '9' then some (c.toNat - '0'.toNat)
  else if 'a' ≤ c ∧ c ≤ 'f' then some (c.toNat - 'a'.toNat + 10)
  else if 'A' ≤ c ∧ c ≤ 'F' then some (c.toNat - 'A'.toNat + 10)
  else none

/-- Single-character JSON string escapes. -/
def unescape (c : Char) : Option Char :=
  if c = '"' then some '"'
  else if c = '\\' then some '\\'
  else if c = '/' then some '/'
  else if c = 'b' then some (Char.ofNat 8)
  else if c = 'f' then some (Char.ofNat 12)
  else if c = 'n' then some '\n'
  else if c = 'r' then some '\r'
  else if c = 't' then some '\t'
  else none

/-- Parse the body of a JSON string after the opening quote, up to and
including the closing quote.  Raw control characters and unknown escapes are
rejected, as in `JSON.parse`. -/
def parseStringBody : List Char → Option (List Char × List Char)
  | [] => none
  | '"' :: rest => some ([], rest)
  | '\\' :: 'u' :: h1 :: h2 :: h3 :: h4 :: rest =>
    match hexVal h1, hexVal h2, hexVal h3, hexVal h4 with
    | some a, some b, some c, some d =>
      match parseStringBody rest with
      | some (s, r) => some (Char.ofNat (((a * 16 + b) * 16 + c) * 16 + d) :: s, r)
      | none => none
    | _, _, _, _ => none
  | '\\' :: e :: rest =>
    match unescape e with
    | some c =>
      match parseStringBody rest with
      | some (s, r) => some (c :: s, r)
      | none => none
    | none => none
  | '\\' :: [] => none
  | c :: rest =>
    if c.toNat < 32 then none
    else
      match parseStringBody rest with
      | some (s, r) => some (c :: s, r)
      | none => none

/-- Split off a run of decimal digits. -/
def takeDigits (cs : List Char) : List Char × List Char :=
  (cs.takeWhile Char.isDigit, cs.dropWhile Char.isDigit)

/-- Parse the integer part of a JSON number: `0`, or a nonzero digit followed
by digits. -/
def parseIntPart (cs : List Char) : Option (List Char × List Char) :=
  match cs with
  | '0' :: rest => some (['0'], rest)
  | c :: _ =>
    if c.isDigit then
      let (ds, rest) := takeDigits cs
      some (ds, rest)
    else none
  | [] => none

/-- Parse an optional fraction part `.digits`. -/
def parseFracPart (cs : List Char) : Option (List Char × List Char) :=
  match cs with
  | '.' :: rest =>
    let (ds, rest') := takeDigits rest
    if ds.isEmpty then none else some ('.' :: ds, rest')
  | _ => some ([], cs)

/-- Parse an optional exponent part `[eE][+-]?digits`. -/
def parseExpPart (cs : List Char) : Option (List Char × List Char) :=
  match cs with
  | e :: rest =>
    if e = 'e' ∨ e = 'E' then
      let (sign, rest') :=
        match rest with
        | '+' :: r => (['+'], r)
        | '-' :: r => (['-'], r)
        | r => (([] : List Char), r)
      let (ds, rest'') := takeDigits rest'
      if ds.isEmpty then none else some (e :: (sign ++ ds), rest'')
    else some ([], cs)
  | [] => some ([], cs)

/-- Parse a JSON number token, returning its lexeme. -/
def parseNumberLexeme (cs : List Char) : Option (List Char × List Char) :=
  let (minus, cs₁) :=
    match cs with
    | '-' :: r => (['-'], r)
    | r => (([] : List Char), r)
  match parseIntPart cs₁ with
  | none => none
  | some (ip, cs₂) =>
    match parseFracPart cs₂ with
    | none => none
    | some (fp, cs₃) =>
      match parseExpPart cs₃ with
      | none => none
      | some (ep, cs₄) => some (minus ++ ip ++ fp ++ ep, cs₄)

mutual

/-- Parse one JSON value (fuel-bounded recursive descent). -/
def parseValue : Nat → List Char → Option (Json × List Char)
  | 0, _ => none
  | Nat.succ fuel, cs =>
    match skipWs cs with
    | [] => none
    | c :: rest =>
      if c = '"' then
        match parseStringBody rest with
        | some (content, r) => some (Json.str (String.mk content), r)
        | none => none
      else if c = '{' then
        match skipWs rest with
        | '}' :: r => some (Json.obj [], r)
        | r =>
          match parseMembers fuel r with
          | some (ms, r') => some (Json.obj ms, r')
          | none => none
      else if c = '[' then
        match skipWs rest with
        | ']' :: r => some (Json.arr [], r)
        | r =>
          match parseElems fuel r with
          | some (es, r') => some (Json.arr es, r')
          | none => none
      else if c = 't' then
        match stripLit ['r', 'u', 'e'] rest with
        | some r => some (Json.bool true, r)
        | none => none
      else if c = 'f' then
        match stripLit ['a', 'l', 's', 'e'] rest with
        | some r => some (Json.bool false, r)
        | none => none
      else if c = 'n' then
        match stripLit ['u', 'l', 'l'] rest with
        | some r => some (Json.null, r)
        | none => none
      else
        match parseNumberLexeme (c :: rest) with
        | some (lexeme, r) => some (Json.num (String.mk lexeme), r)
        | none => none

/-- Parse the non-empty member list of a JSON object, consuming the closing
brace. -/
def parseMembers : Nat → List Char → Option (List (String × Json) × List Char)
  | 0, _ => none
  | Nat.succ fuel, cs =>
    match skipWs cs with
    | '"' :: rest =>
      match parseStringBody rest with
      | some (key, r) =>
        match skipWs r with
        | ':' :: r' =>
          match parseValue fuel r' with
          | some (v, r'') =>
            match skipWs r'' with
            | ',' :: r''' =>
              match parseMembers fuel r''' with
              | some (ms, r4) => some ((String.mk key, v) :: ms, r4)
              | none => none
            | '}' :: r''' => some ([(String.mk key, v)], r''')
            | _ => none
          | none => none
        | _ => none
      | none => none
    | _ => none

/-- Parse the non-empty element list of a JSON array, consuming the closing
bracket. -/
def parseElems : Nat → List Char → Option (List Json × List Char)
  | 0, _ => none
  | Nat.succ fuel, cs =>
    match parseValue fuel cs with
    | some (v, r) =>
      match skipWs r with
      | ',' :: r' =>
        match parseElems fuel r' with
        | some (es, r'') => some (v :: es, r'')
        | none => none
      | ']' :: r' => some ([v], r')
      | _ => none
    | none => none

end

/-- Embedding of the `JSON.parse` builtin: parse one value and require only
whitespace to remain; any violation of the grammar is a thrown `SyntaxError`,
embedded as `none`. -/
def jsonParse (s : String) : Option Json :=
  let cs := s.toList
  match parseValue (2 * cs.length + 2) cs with
  | some (v, rest) => if (skipWs rest).isEmpty then some v else none
  | none => none

/-! ### Input descriptors and the derived response shape (src/types/inputs.ts)

`ResponseFromInputs` is a TypeScript mapped type; per spec §9 its meaning is
re-expressed as runtime schema construction keyed by field name. -/

/-- An input descriptor: `TextInput`, `ConfirmInput` or `SelectInput`.  Only
the fields consulted by `ResponseTypeFromInput` are kept (`type`, `name`, and
`multiple` for select; an absent `multiple` flag behaves as `false` since only
`multiple extends true` selects the list type). -/
inductive Input : Type
  | text (name : String)
  | confirm (name : String)
  | select (name : String) (multiple : Bool)
deriving DecidableEq

/-- The declared field name of a descriptor. -/
def Input.name : Input → String
  | .text n => n
  | .confirm n => n
  | .select n _ => n

/-- The per-field response types of the derived record. -/
inductive FieldTy : Type
  | boolean
  | string
  | stringList
deriving DecidableEq

/-- Embedding of `ResponseTypeFromInput`: confirm → boolean; select with the
multiple flag → string list; select without it → string; text → string. -/
def responseTypeFromInput : Input → FieldTy
  | .confirm _ => .boolean
  | .select _ true => .stringList
  | .select _ false => .string
  | .text _ => .string

/-- Embedding of `ResponseFromInputs`: the derived response record shape,
keyed by declared field name. -/
def responseShape (inputs : List Input) : List (String × FieldTy) :=
  inputs.map (fun i => (i.name, responseTypeFromInput i))

/-- The derived shape viewed as a keyed (not positional) map. -/
def shapeLookup (inputs : List Input) (n : String) : Option FieldTy :=
  lookupA n (responseShape inputs)

/-! ### The decode step of `Session.handleResponse` -/

/-- Embedding of the decode in `Session.handleResponse`:
`try { resolve(JSON.parse(content)) } catch { resolve(content) }` — the parse
result when parsing succeeds, the raw content string otherwise. -/
def decodeResponseContent (content : String) : Json :=
  match jsonParse content with
  | some v => v
  | none => Json.str content

/-- Modelled from the spec (§4.3): whether a decoded value conforms to one
field of the derived shape.  The source contains no such validator; this
definition follows the spec's per-kind mapping and exists only to compare the
spec's claimed best-effort validation against what the code does. -/
def specFieldConforms : FieldTy → Json → Bool
  | .boolean, .bool _ => true
  | .string, .str _ => true
  | .stringList, .arr items =>
    items.all fun j => match j with | .str _ => true | _ => false
  | _, _ => false

/-- Modelled from the spec (§4.3): structural validity of a decoded payload
against a derived shape — an object supplying a conforming value for every
declared field. -/
def specConforms (shape : List (String × FieldTy)) (v : Json) : Bool :=
  match v with
  | .obj fields =>
    shape.all fun nt =>
      match lookupA nt.1 fields with
      | some fv => specFieldConforms nt.2 fv
      | none => false
  | _ => false

/-! ### The Session correlation engine (resources/session.ts)

The `Session` class reacts to connection events inside a single-threaded event
loop, so its behaviour is embedded as a step function on an explicit state
record, one step per event-handler invocation.  The waiting caller of each
pending entry is embedded as a settle-once outcome map (JS promises settle at
most once; later resolve/reject calls are no-ops).  An `ask` whose
acknowledgment resolves registers its pending question in the promise
continuation that runs before the next inbound event; the registration is
folded into the `messageAck` step. -/

/-- The distinguished session-invalidation close code. -/
def SESSION_EXPIRED_CLOSE_CODE : Nat := 4001

/-- Default ask deadline: five minutes in milliseconds. -/
def DEFAULT_ASK_TIMEOUT : Nat := 5 * 60 * 1000

/-- Failure delivered to a waiting caller: `SessionExpiredError`,
`TimeoutError`, or the `Error("Session closed")` thrown by `close()`. -/
inductive Failure : Type
  | sessionExpired
  | timeout
  | sessionClosed
deriving DecidableEq

/-- Outcome of a `sendAndWaitForAck` caller. -/
inductive AckOutcome : Type
  | acked (messageId : String)
  | failed (e : Failure)
deriving DecidableEq

/-- Outcome of a waiting `ask` caller. -/
inductive QOutcome : Type
  | answered (v : Json)
  | failed (e : Failure)

/-- What the ack's awaiting continuation does: nothing for a `log`, question
registration with the given timeout for an `ask`. -/
inductive AckKind : Type
  | forLog
  | forAsk (timeout : Nat)
deriving DecidableEq

/-- Message kind on the wire. -/
inductive MsgType : Type
  | log
  | ask
deriving DecidableEq

/-- A `messageUpdated` event payload after `transformMessage`, restricted to
the fields the handler consults: permanent id, message type and response
content (`none` embeds JS `null`). -/
structure MessageView : Type where
  id : String
  mtype : MsgType
  responseContent : Option String

/-- State of one `Session`: the two pending maps (insertion-ordered, as JS
`Map`s), the ack counter, whether the WebSocket connection object exists, the
set of live question deadline timers, and the settle-once caller outcomes. -/
structure SessionState : Type where
  recipients : List String
  pendingAcks : List (Nat × AckKind)
  pendingQuestions : List (String × Nat)
  activeTimers : List String
  ackCounter : Nat
  connectionCreated : Bool
  ackOutcomes : List (Nat × AckOutcome)
  questionOutcomes : List (String × QOutcome)

/-- A freshly constructed session: empty maps, zero counter, no connection. -/
def initialSession (recipients : List String) : SessionState :=
  ⟨recipients, [], [], [], 0, false, [], []⟩

/-- Observable side effects of a session step. -/
inductive SAction : Type
  | openedConnection
  | sentPayload (t : MsgType)
  | threwBadRequest
deriving DecidableEq

/-- Events driving the session: the public calls and the connection callbacks
wired in `setupConnectionHandlers`, plus the firing of a question deadline
timer. -/
inductive SEvent : Type
  | callLog
  | callAsk (timeout : Nat)
  | messageAck (mid : String)
  | messageUpdated (m : MessageView)
  | disconnected (code : Option Nat)
  | fireTimeout (mid : String)
  | callClose

/-- Embedding of `ensureConnected`: create the connection object on first
use. -/
def ensureConnected (s : SessionState) : SessionState × List SAction :=
  if s.connectionCreated then (s, [])
  else ({ s with connectionCreated := true }, [.openedConnection])

/-- Embedding of `sendAndWaitForAck`: reserve the next ack counter value,
record the pending ack (appended, preserving JS `Map` insertion order) and
transmit the payload. -/
def sendAndWaitForAck (s : SessionState) (kind : AckKind) (t : MsgType) :
    SessionState × List SAction :=
  let ackId := s.ackCounter + 1
  ({ s with
      ackCounter := ackId,
      pendingAcks := s.pendingAcks ++ [(ackId, kind)] },
    [.sentPayload t])

/-- Embedding of the `messageAck` handler: resolve the oldest pending ack
(first key in insertion order) with the permanent id and delete it; when no
entry is pending do nothing.  Resolving an `ask`'s ack runs its continuation,
which registers the pending question and starts its deadline timer. -/
def handleMessageAck (mid : String) (s : SessionState) : SessionState :=
  match s.pendingAcks with
  | [] => s
  | (k, kind) :: rest =>
    let s' := { s with
      pendingAcks := rest,
      ackOutcomes := settle k (.acked mid) s.ackOutcomes }
    match kind with
    | .forLog => s'
    | .forAsk t =>
      { s' with
        pendingQuestions := setA mid t s'.pendingQuestions,
        activeTimers := s'.activeTimers ++ [mid] }

/-- Embedding of `Session.handleResponse`: ignore ids with no pending entry;
otherwise cancel the deadline timer, delete the entry, and resolve the caller
with the decoded response content. -/
def handleResponse (mid : String) (content : String) (s : SessionState) :
    SessionState :=
  match lookupA mid s.pendingQuestions with
  | none => s
  | some _ =>
    { s with
      activeTimers := s.activeTimers.erase mid,
      pendingQuestions := eraseA mid s.pendingQuestions,
      questionOutcomes :=
        settle mid (.answered (decodeResponseContent content)) s.questionOutcomes }

/-- Embedding of the `messageUpdated` handler: forward to `handleResponse`
only for an `ask` message with non-null response content. -/
def handleMessageUpdated (m : MessageView) (s : SessionState) : SessionState :=
  match m.responseContent with
  | some content => if m.mtype = .ask then handleResponse m.id content s else s
  | none => s

/-- Embedding of the `disconnected` handler: on the session-expired close code
reject every pending question (cancelling its timer) and every pending ack
with `SessionExpiredError` and clear both maps; any other close code leaves
the engine untouched. -/
def handleDisconnected (code : Option Nat) (s : SessionState) : SessionState :=
  if code = some SESSION_EXPIRED_CLOSE_CODE then
    { s with
      activeTimers := s.pendingQuestions.foldl (fun ts kv => ts.erase kv.1) s.activeTimers,
      questionOutcomes :=
        settleAll (.failed .sessionExpired) s.pendingQuestions s.questionOutcomes,
      pendingQuestions := [],
      ackOutcomes := settleAll (.failed .sessionExpired) s.pendingAcks s.ackOutcomes,
      pendingAcks := [] }
  else s

/-- Embedding of one question deadline timer firing.  A timer can fire only
while it has not been cleared (`clearTimeout`); the callback then deletes the
pending entry and rejects the caller with `TimeoutError`. -/
def fireAskTimeout (mid : String) (s : SessionState) : SessionState :=
  if mid ∈ s.activeTimers then
    { s with
      activeTimers := s.activeTimers.erase mid,
      pendingQuestions := eraseA mid s.pendingQuestions,
      questionOutcomes := settle mid (.failed .timeout) s.questionOutcomes }
  else s

/-- Embedding of `Session.close`: reject every pending question (cancelling
its timer) and every pending ack with the closed-session error, clear both
maps, and release the connection object. -/
def sessionClose (s : SessionState) : SessionState :=
  { s with
    activeTimers := s.pendingQuestions.foldl (fun ts kv => ts.erase kv.1) s.activeTimers,
    questionOutcomes :=
      settleAll (.failed .sessionClosed) s.pendingQuestions s.questionOutcomes,
    pendingQuestions := [],
    ackOutcomes := settleAll (.failed .sessionClosed) s.pendingAcks s.ackOutcomes,
    pendingAcks := [],
    connectionCreated := false }

/-- One session step: dispatch an event to the corresponding handler.
`callAsk` first runs the empty-recipients guard of `Session.ask`, which
throws `BadRequestError` before the connection is ensured or anything is
transmitted. -/
def sstep (s : SessionState) : SEvent → SessionState × List SAction
  | .callLog =>
    let (s₁, a₁) := ensureConnected s
    let (s₂, a₂) := sendAndWaitForAck s₁ .forLog .log
    (s₂, a₁ ++ a₂)
  | .callAsk t =>
    if s.recipients = [] then (s, [.threwBadRequest])
    else
      let (s₁, a₁) := ensureConnected s
      let (s₂, a₂) := sendAndWaitForAck s₁ (.forAsk t) .ask
      (s₂, a₁ ++ a₂)
  | .messageAck mid => (handleMessageAck mid s, [])
  | .messageUpdated m => (handleMessageUpdated m s, [])
  | .disconnected code => (handleDisconnected code s, [])
  | .fireTimeout mid => (fireAskTimeout mid s, [])
  | .callClose => (sessionClose s, [])

/-- Run a sequence of events. -/
def srun (s : SessionState) : List SEvent → SessionState
  | [] => s
  | e :: evs => srun (sstep s e).1 evs

/-- The ack-counter keys whose pending entry one event resolves: a
`messageAck` resolves the first (oldest) pending entry, everything else
resolves none. -/
def ackResolvedBy (s : SessionState) : SEvent → List Nat
  | .messageAck _ =>
    match s.pendingAcks with
    | [] => []
    | (k, _) :: _ => [k]
  | _ => []

/-- The ack-counter keys resolved by `messageAck` events along a trace, in
resolution order. -/
def resolvedAcks (s : SessionState) : List SEvent → List Nat
  | [] => []
  | e :: evs => ackResolvedBy s e ++ resolvedAcks (sstep s e).1 evs

/-- The keys of the pending-ack map, in insertion order. -/
def ackKeys (s : SessionState) : List Nat :=
  s.pendingAcks.map Prod.fst

/-! ### The WebSocket connection manager (src/websocket/connection.ts)

`WebSocketConnection` is embedded as a step function over an explicit state
record.  The memoised `connectPromise` is a promise identifier; promise
outcomes live in a settle-once map (`true` = resolved, `false` = rejected).
`Math.random() * 1000` is a step parameter `jitter`.  Channel-level side
effects (opening the socket, detaching handlers, closing it, arming or
cancelling the reconnect timer) are reported as an action list so that their
presence and order can be stated. -/

/-- Resolved WebSocket options (autoReconnect, maxReconnectAttempts,
reconnectDelay), headers omitted. -/
structure ConnOpts : Type where
  autoReconnect : Bool
  maxReconnectAttempts : Nat
  reconnectDelay : ℚ

/-- The defaults applied by `createWebSocketConnection`. -/
def defaultConnOpts : ConnOpts :=
  ⟨true, 5, 1000⟩

/-- The `ConnectionStatus` union. -/
inductive ConnStatus : Type
  | disconnected
  | connecting
  | connected
  | error
deriving DecidableEq

/-- State of one `WebSocketConnection`.  `wsAttached` is whether `this.ws` is
a live socket with handlers attached; `channelsOpened` counts `new WebSocket`
constructions; `reconnectTimer` holds the armed backoff delay. -/
structure ConnState : Type where
  wsAttached : Bool
  status : ConnStatus
  reconnectAttempts : Nat
  reconnectTimer : Option ℚ
  manualClose : Bool
  connectPromise : Option Nat
  promiseOutcomes : List (Nat × Bool)
  nextPromise : Nat
  channelsOpened : Nat

/-- A freshly constructed connection. -/
def initialConn : ConnState :=
  ⟨false, .disconnected, 0, none, false, none, [], 0, 0⟩

/-- What a `connect()` call returned: the memoised in-flight promise, an
immediately resolved promise (already connected), or a fresh attempt. -/
inductive ConnectResult : Type
  | sharedExisting (pid : Nat)
  | immediate
  | started (pid : Nat)
deriving DecidableEq

/-- Channel-level side effects of a connection step. -/
inductive CAction : Type
  | openChannel
  | detachHandlers
  | closeChannel
  | armTimer (delay : ℚ)
  | cancelTimer
deriving DecidableEq

/-- Server frames, discriminated by `type`. -/
inductive ServerMsg : Type
  | connected
  | message
  | messageUpdated
  | messageAck
  | errorMsg
deriving DecidableEq

/-- Events driving the connection: public calls, channel callbacks and the
reconnect timer.  `wsMessage` is an inbound frame that parsed successfully
(malformed frames are ignored by `onmessage` and take no step). -/
inductive CEvent : Type
  | callConnect
  | wsOpen
  | wsMessage (m : ServerMsg)
  | wsClose (code : Nat)
  | wsError
  | timerFire
  | callClose

/-- Embedding of `connect()`: return the in-flight promise if one exists,
resolve immediately when already connected, and otherwise enter `connecting`,
construct the socket and memoise a fresh promise. -/
def connConnect (s : ConnState) : ConnState × ConnectResult × List CAction :=
  match s.connectPromise with
  | some p => (s, .sharedExisting p, [])
  | none =>
    if s.status = .connected then (s, .immediate, [])
    else
      let pid := s.nextPromise
      ({ s with
          status := .connecting,
          wsAttached := true,
          connectPromise := some pid,
          nextPromise := pid + 1,
          channelsOpened := s.channelsOpened + 1 },
        .started pid, [.openChannel])

/-- Embedding of the backoff formula in `scheduleReconnect`:
`min(reconnectDelay * 2 ** attempts + jitter, 30000)` where `jitter` stands
for `Math.random() * 1000`. -/
def backoffDelay (opts : ConnOpts) (attempts : Nat) (jitter : ℚ) : ℚ :=
  min (opts.reconnectDelay * 2 ^ attempts + jitter) 30000

/-- Embedding of `scheduleReconnect`: no timer at or above the attempt cap,
otherwise arm the backoff timer. -/
def scheduleReconnect (opts : ConnOpts) (jitter : ℚ) (s : ConnState) :
    ConnState × List CAction :=
  if s.reconnectAttempts ≥ opts.maxReconnectAttempts then (s, [])
  else
    let d := backoffDelay opts s.reconnectAttempts jitter
    ({ s with reconnectTimer := some d }, [.armTimer d])

/-- Embedding of `handleMessage`: the `connected` frame completes the
handshake (status `connected`, attempts reset) and settles the in-flight
promise; every other frame is only fanned out to listeners. -/
def connHandleMessage (m : ServerMsg) (s : ConnState) : ConnState :=
  match m with
  | .connected =>
    let s' := { s with status := .connected, reconnectAttempts := 0 }
    match s'.connectPromise with
    | some p =>
      { s' with
          connectPromise := none,
          promiseOutcomes := settle p true s'.promiseOutcomes }
    | none => s'
  | _ => s

/-- Embedding of the `onclose` callback: drop the socket, enter
`disconnected`, reject a still-waiting connect promise, and schedule a
reconnect unless manually closed or auto-reconnect is off. -/
def connHandleClose (opts : ConnOpts) (jitter : ℚ) (s : ConnState) :
    ConnState × List CAction :=
  let s₁ := { s with wsAttached := false, status := .disconnected }
  let s₂ :=
    match s₁.connectPromise with
    | some p =>
      { s₁ with
          connectPromise := none,
          promiseOutcomes := settle p false s₁.promiseOutcomes }
    | none => s₁
  if ¬s₂.manualClose ∧ opts.autoReconnect then scheduleReconnect opts jitter s₂
  else (s₂, [])

/-- Embedding of `close()`: set the manual-close flag, cancel any armed
reconnect timer, then — with handlers detached first — close the channel,
drop the memoised promise and enter `disconnected`.  The action list records
the order of the channel-level effects. -/
def connClose (s : ConnState) : ConnState × List CAction :=
  let (s₁, a₁) :=
    if s.reconnectTimer.isSome then
      ({ s with manualClose := true, reconnectTimer := none }, [CAction.cancelTimer])
    else ({ s with manualClose := true }, [])
  if s₁.wsAttached then
    ({ s₁ with wsAttached := false, connectPromise := none, status := .disconnected },
      a₁ ++ [CAction.detachHandlers, CAction.closeChannel])
  else
    ({ s₁ with connectPromise := none, status := .disconnected }, a₁)

/-- One connection step.  `wsOpen`, `wsMessage`, `wsClose` and `wsError`
require an attached socket; `timerFire` requires an armed timer (it consumes
the timer, increments the attempt counter and calls `connect()`). -/
def cstep (opts : ConnOpts) (jitter : ℚ) (s : ConnState) :
    CEvent → ConnState × List CAction
  | .callConnect =>
    let (s', _, a) := connConnect s
    (s', a)
  | .wsOpen => (s, [])
  | .wsMessage m => if s.wsAttached then (connHandleMessage m s, []) else (s, [])
  | .wsClose _ => if s.wsAttached then connHandleClose opts jitter s else (s, [])
  | .wsError =>
    if s.wsAttached then ({ s with status := .error }, []) else (s, [])
  | .timerFire =>
    if s.reconnectTimer.isSome then
      let s₁ := { s with
        reconnectTimer := none,
        reconnectAttempts := s.reconnectAttempts + 1 }
      let (s₂, _, a) := connConnect s₁
      (s₂, a)
    else (s, [])
  | .callClose => connClose s

/-- Run a sequence of connection events, collecting all emitted actions. -/
def crun (opts : ConnOpts) (jitter : ℚ) (s : ConnState) :
    List CEvent → ConnState × List CAction
  | [] => (s, [])
  | e :: evs =>
    ((crun opts jitter (cstep opts jitter s e).1 evs).1,
      (cstep opts jitter s e).2 ++ (crun opts jitter (cstep opts jitter s e).1 evs).2)

/-! ### FIFO ack correlation (claim C1 support) -/

/-- Well-formedness of the pending-ack map: keys are strictly increasing in
insertion order and bounded by the counter.  Holds initially and along every
execution. -/
def AcksWF (s : SessionState) : Prop :=
  (ackKeys s).Pairwise (· < ·) ∧ ∀ k ∈ ackKeys s, k ≤ s.ackCounter

/-- All pending ack keys lie strictly above `c`, and `c` is at most the
counter (so freshly allocated keys stay above `c` too). -/
def AcksAbove (c : Nat) (s : SessionState) : Prop :=
  (∀ k ∈ ackKeys s, c < k) ∧ c ≤ s.ackCounter

theorem lookupA_setA_self {α β : Type} [DecidableEq α] (k : α) (v : β) (m : List (α × β)) :
    lookupA k (setA k v m) = some v := by
  induction m with
  | nil => simp [setA, lookupA]
  | cons hd tl ih =>
    obtain ⟨k', v'⟩ := hd
    by_cases h : k = k' <;> simp [setA, lookupA, h, ih]

theorem lookupA_setA_ne {α β : Type} [DecidableEq α] (k j : α) (v : β) (m : List (α × β))
    (hne : j ≠ k) : lookupA j (setA k v m) = lookupA j m := by
  induction m with
  | nil => simp [setA, lookupA, hne]
  | cons hd tl ih =>
    obtain ⟨k', v'⟩ := hd
    by_cases h : k = k'
    · subst h
      simp [setA, lookupA, hne]
    · by_cases h' : j = k' <;> simp [setA, lookupA, h, h', ih]

theorem lookupA_settle_stable {α β : Type} [DecidableEq α] (k j : α) (v w : β)
    (m : List (α × β)) (h : lookupA j m = some w) :
    lookupA j (settle k v m) = some w := by
  unfold settle
  cases hk : lookupA k m with
  | some _ => simpa [hk] using h
  | none =>
    by_cases hj : j = k
    · subst hj
      rw [h] at hk
      exact absurd hk (by simp)
    · rw [lookupA_setA_ne k j v m hj]
      exact h

theorem lookupA_settle_none {α β : Type} [DecidableEq α] (k : α) (v : β)
    (m : List (α × β)) (h : lookupA k m = none) :
    lookupA k (settle k v m) = some v := by
  unfold settle
  rw [h]
  exact lookupA_setA_self k v m

theorem lookupA_settle_ne {α β : Type} [DecidableEq α] (k j : α) (v : β)
    (m : List (α × β)) (hne : j ≠ k) :
    lookupA j (settle k v m) = lookupA j m := by
  unfold settle
  cases hk : lookupA k m with
  | some _ => rfl
  | none => exact lookupA_setA_ne k j v m hne

theorem lookupA_eq_none_of_not_mem {α β : Type} [DecidableEq α] (k : α)
    (l : List (α × β)) (h : k ∉ l.map Prod.fst) : lookupA k l = none := by
  induction l with
  | nil => rfl
  | cons hd tl ih =>
    simp only [List.map_cons, List.mem_cons, not_or] at h
    obtain ⟨k', v'⟩ := hd
    simp only [lookupA, h.1, if_false]
    exact ih h.2

theorem lookupA_eraseA_self {α β : Type} [DecidableEq α] (k : α)
    (l : List (α × β)) (hnd : (l.map Prod.fst).Nodup) :
    lookupA k (eraseA k l) = none := by
  induction l with
  | nil => rfl
  | cons hd tl ih =>
    obtain ⟨k', v'⟩ := hd
    simp only [List.map_cons, List.nodup_cons] at hnd
    by_cases h : k = k'
    · simp only [eraseA, h, if_true]
      exact lookupA_eq_none_of_not_mem k' tl hnd.1
    · simp only [eraseA, h, if_false, lookupA, if_false]
      exact ih hnd.2

theorem lookupA_eraseA_ne {α β : Type} [DecidableEq α] (k j : α)
    (l : List (α × β)) (hne : j ≠ k) :
    lookupA j (eraseA k l) = lookupA j l := by
  induction l with
  | nil => rfl
  | cons hd tl ih =>
    obtain ⟨k', v'⟩ := hd
    by_cases h : k = k'
    · subst h
      simp [eraseA, lookupA, hne]
    · by_cases h' : j = k' <;> simp [eraseA, lookupA, h, h', ih]

theorem settleAll_stable {α β γ : Type} [DecidableEq α] (v w : β) (j : α)
    (pend : List (α × γ)) (m : List (α × β)) (h : lookupA j m = some w) :
    lookupA j (settleAll v pend m) = some w := by
  induction pend generalizing m with
  | nil => simpa [settleAll] using h
  | cons hd tl ih =>
    simp only [settleAll, List.foldl_cons]
    exact ih (settle hd.1 v m) (lookupA_settle_stable hd.1 j v w m h)

theorem settleAll_mem {α β γ : Type} [DecidableEq α] (v : β) (j : α)
    (pend : List (α × γ)) (m : List (α × β))
    (hmem : j ∈ pend.map Prod.fst) (h : lookupA j m = none) :
    lookupA j (settleAll v pend m) = some v := by
  induction pend generalizing m with
  | nil => simp at hmem
  | cons hd tl ih =>
    simp only [List.map_cons, List.mem_cons] at hmem
    simp only [settleAll, List.foldl_cons]
    rcases hmem with hj | hj
    · exact settleAll_stable v v j tl (settle hd.1 v m)
        (by rw [hj]; exact lookupA_settle_none hd.1 v m (hj ▸ h))
    · by_cases hjh : j = hd.1
      · exact settleAll_stable v v j tl (settle hd.1 v m)
          (by rw [hjh]; exact lookupA_settle_none hd.1 v m (hjh ▸ h))
      · exact ih (settle hd.1 v m) hj (by rw [lookupA_settle_ne hd.1 j v m hjh]; exact h)

theorem settleAll_not_mem {α β γ : Type} [DecidableEq α] (v : β) (j : α)
    (pend : List (α × γ)) (m : List (α × β)) (hmem : j ∉ pend.map Prod.fst) :
    lookupA j (settleAll v pend m) = lookupA j m := by
  induction pend generalizing m with
  | nil => simp [settleAll]
  | cons hd tl ih =>
    simp only [List.map_cons, List.mem_cons, not_or] at hmem
    have hstep : settleAll v (hd :: tl) m = settleAll v tl (settle hd.1 v m) := rfl
    rw [hstep, ih (settle hd.1 v m) hmem.2, lookupA_settle_ne hd.1 j v m hmem.1]

/-! ### Computation lemmas for the session step function -/

theorem sstep_callLog (s : SessionState) :
    sstep s .callLog =
      ({ s with
          connectionCreated := true,
          ackCounter := s.ackCounter + 1,
          pendingAcks := s.pendingAcks ++ [(s.ackCounter + 1, .forLog)] },
        (if s.connectionCreated then [] else [SAction.openedConnection]) ++
          [SAction.sentPayload .log]) := by
  by_cases h : s.connectionCreated
  · simp only [sstep, ensureConnected, sendAndWaitForAck, h, if_true]
  · simp only [sstep, ensureConnected, sendAndWaitForAck, h, if_false]
    simp

theorem sstep_callAsk (s : SessionState) (t : Nat) (hrec : s.recipients ≠ []) :
    sstep s (.callAsk t) =
      ({ s with
          connectionCreated := true,
          ackCounter := s.ackCounter + 1,
          pendingAcks := s.pendingAcks ++ [(s.ackCounter + 1, .forAsk t)] },
        (if s.connectionCreated then [] else [SAction.openedConnection]) ++
          [SAction.sentPayload .ask]) := by
  by_cases h : s.connectionCreated
  · simp only [sstep, ensureConnected, sendAndWaitForAck, h, hrec, if_true, if_false]
  · simp only [sstep, ensureConnected, sendAndWaitForAck, h, hrec, if_false]
    simp

theorem handleMessageAck_pendingAcks (mid : String) (s : SessionState) :
    (handleMessageAck mid s).pendingAcks = s.pendingAcks.tail := by
  cases hpa : s.pendingAcks with
  | nil => simp [handleMessageAck, hpa]
  | cons hd rest =>
    obtain ⟨k, kind⟩ := hd
    cases kind <;> simp [handleMessageAck, hpa]

theorem handleMessageAck_ackCounter (mid : String) (s : SessionState) :
    (handleMessageAck mid s).ackCounter = s.ackCounter := by
  cases hpa : s.pendingAcks with
  | nil => simp [handleMessageAck, hpa]
  | cons hd rest =>
    obtain ⟨k, kind⟩ := hd
    cases kind <;> simp [handleMessageAck, hpa]

theorem handleMessageAck_ackOutcomes (mid : String) (s : SessionState) :
    (handleMessageAck mid s).ackOutcomes =
      match s.pendingAcks with
      | [] => s.ackOutcomes
      | (k, _) :: _ => settle k (.acked mid) s.ackOutcomes := by
  cases hpa : s.pendingAcks with
  | nil => simp [handleMessageAck, hpa]
  | cons hd rest =>
    obtain ⟨k, kind⟩ := hd
    cases kind <;> simp [handleMessageAck, hpa]

theorem handleMessageUpdated_acks (m : MessageView) (s : SessionState) :
    (handleMessageUpdated m s).pendingAcks = s.pendingAcks ∧
      (handleMessageUpdated m s).ackOutcomes = s.ackOutcomes ∧
      (handleMessageUpdated m s).ackCounter = s.ackCounter := by
  cases hrc : m.responseContent with
  | none => simp [handleMessageUpdated, hrc]
  | some content =>
    by_cases hm : m.mtype = MsgType.ask
    · cases hq : lookupA m.id s.pendingQuestions with
      | none => simp [handleMessageUpdated, handleResponse, hrc, hm, hq]
      | some _ => simp [handleMessageUpdated, handleResponse, hrc, hm, hq]
    · simp [handleMessageUpdated, hrc, hm]

theorem fireAskTimeout_acks (mid : String) (s : SessionState) :
    (fireAskTimeout mid s).pendingAcks = s.pendingAcks ∧
      (fireAskTimeout mid s).ackOutcomes = s.ackOutcomes ∧
      (fireAskTimeout mid s).ackCounter = s.ackCounter := by
  unfold fireAskTimeout
  by_cases h : mid ∈ s.activeTimers <;> simp [h]

theorem handleDisconnected_other (code : Option Nat) (s : SessionState)
    (h : code ≠ some SESSION_EXPIRED_CLOSE_CODE) :
    handleDisconnected code s = s := by
  unfold handleDisconnected
  simp [h]

/-! ### Settle-once stability of caller outcomes -/

theorem ackOutcome_stable_step (s : SessionState) (e : SEvent) (k : Nat)
    (v : AckOutcome) (h : lookupA k s.ackOutcomes = some v) :
    lookupA k (sstep s e).1.ackOutcomes = some v := by
  cases e with
  | callLog => rw [sstep_callLog]; exact h
  | callAsk t =>
    by_cases hrec : s.recipients = []
    · simp only [sstep, hrec, if_true]; exact h
    · rw [sstep_callAsk s t hrec]; exact h
  | messageAck mid =>
    show lookupA k (handleMessageAck mid s).ackOutcomes = some v
    rw [handleMessageAck_ackOutcomes]
    cases hpa : s.pendingAcks with
    | nil => exact h
    | cons hd rest => exact lookupA_settle_stable hd.1 k _ v _ h
  | messageUpdated m =>
    show lookupA k (handleMessageUpdated m s).ackOutcomes = some v
    rw [(handleMessageUpdated_acks m s).2.1]; exact h
  | disconnected code =>
    show lookupA k (handleDisconnected code s).ackOutcomes = some v
    by_cases hc : code = some SESSION_EXPIRED_CLOSE_CODE
    · simp only [handleDisconnected, hc, if_true]
      exact settleAll_stable _ v k _ _ h
    · rw [handleDisconnected_other code s hc]; exact h
  | fireTimeout mid =>
    show lookupA k (fireAskTimeout mid s).ackOutcomes = some v
    rw [(fireAskTimeout_acks mid s).2.1]; exact h
  | callClose =>
    show lookupA k (sessionClose s).ackOutcomes = some v
    exact settleAll_stable _ v k _ _ h

theorem questionOutcome_stable_step (s : SessionState) (e : SEvent) (q : String)
    (v : QOutcome) (h : lookupA q s.questionOutcomes = some v) :
    lookupA q (sstep s e).1.questionOutcomes = some v := by
  cases e with
  | callLog => rw [sstep_callLog]; exact h
  | callAsk t =>
    by_cases hrec : s.recipients = []
    · simp only [sstep, hrec, if_true]; exact h
    · rw [sstep_callAsk s t hrec]; exact h
  | messageAck mid =>
    show lookupA q (handleMessageAck mid s).questionOutcomes = some v
    cases hpa : s.pendingAcks with
    | nil => simpa [handleMessageAck, hpa] using h
    | cons hd rest =>
      obtain ⟨k, kind⟩ := hd
      cases kind <;> simpa [handleMessageAck, hpa] using h
  | messageUpdated m =>
    show lookupA q (handleMessageUpdated m s).questionOutcomes = some v
    cases hrc : m.responseContent with
    | none => simpa [handleMessageUpdated, hrc] using h
    | some content =>
      by_cases hm : m.mtype = MsgType.ask
      · cases hq : lookupA m.id s.pendingQuestions with
        | none => simpa [handleMessageUpdated, handleResponse, hrc, hm, hq] using h
        | some t =>
          have hgoal :
              (handleMessageUpdated m s).questionOutcomes =
                settle m.id (.answered (decodeResponseContent content))
                  s.questionOutcomes := by
            simp [handleMessageUpdated, handleResponse, hrc, hm, hq]
          rw [hgoal]
          exact lookupA_settle_stable m.id q _ v _ h
      · simpa [handleMessageUpdated, hrc, hm] using h
  | disconnected code =>
    show lookupA q (handleDisconnected code s).questionOutcomes = some v
    by_cases hc : code = some SESSION_EXPIRED_CLOSE_CODE
    · simp only [handleDisconnected, hc, if_true]
      exact settleAll_stable _ v q _ _ h
    · rw [handleDisconnected_other code s hc]; exact h
  | fireTimeout mid =>
    show lookupA q (fireAskTimeout mid s).questionOutcomes = some v
    unfold fireAskTimeout
    by_cases hm : mid ∈ s.activeTimers
    · simp only [hm, if_true]
      exact lookupA_settle_stable mid q _ v _ h
    · simp only [hm, if_false]; exact h
  | callClose =>
    show lookupA q (sessionClose s).questionOutcomes = some v
    exact settleAll_stable _ v q _ _ h

theorem ackOutcome_stable_run (s : SessionState) (evs : List SEvent) (k : Nat)
    (v : AckOutcome) (h : lookupA k s.ackOutcomes = some v) :
    lookupA k (srun s evs).ackOutcomes = some v := by
  induction evs generalizing s with
  | nil => exact h
  | cons e evs ih => exact ih (sstep s e).1 (ackOutcome_stable_step s e k v h)

theorem questionOutcome_stable_run (s : SessionState) (evs : List SEvent)
    (q : String) (v : QOutcome) (h : lookupA q s.questionOutcomes = some v) :
    lookupA q (srun s evs).questionOutcomes = some v := by
  induction evs generalizing s with
  | nil => exact h
  | cons e evs ih => exact ih (sstep s e).1 (questionOutcome_stable_step s e q v h)

theorem acksWF_step (s : SessionState) (e : SEvent) (h : AcksWF s) :
    AcksWF (sstep s e).1 := by
  obtain ⟨hp, hb⟩ := h
  cases e with
  | callLog =>
    rw [sstep_callLog]
    constructor
    · simp only [ackKeys, List.map_append, List.map_cons, List.map_nil]
      rw [List.pairwise_append]
      refine ⟨hp, List.pairwise_singleton _ _, ?_⟩
      intro a ha b hb'
      simp only [List.mem_singleton] at hb'
      subst hb'
      exact Nat.lt_succ_of_le (hb a ha)
    · intro k hk
      simp only [ackKeys, List.map_append, List.map_cons, List.map_nil,
        List.mem_append, List.mem_singleton] at hk
      rcases hk with hk | hk
      · exact Nat.le_succ_of_le (hb k hk)
      · subst hk; exact le_refl _
  | callAsk t =>
    by_cases hrec : s.recipients = []
    · simp only [sstep, hrec, if_true]
      exact ⟨hp, hb⟩
    · rw [sstep_callAsk s t hrec]
      constructor
      · simp only [ackKeys, List.map_append, List.map_cons, List.map_nil]
        rw [List.pairwise_append]
        refine ⟨hp, List.pairwise_singleton _ _, ?_⟩
        intro a ha b hb'
        simp only [List.mem_singleton] at hb'
        subst hb'
        exact Nat.lt_succ_of_le (hb a ha)
      · intro k hk
        simp only [ackKeys, List.map_append, List.map_cons, List.map_nil,
          List.mem_append, List.mem_singleton] at hk
        rcases hk with hk | hk
        · exact Nat.le_succ_of_le (hb k hk)
        · subst hk; exact le_refl _
  | messageAck mid =>
    show AcksWF (handleMessageAck mid s)
    constructor
    · show ((handleMessageAck mid s).pendingAcks.map Prod.fst).Pairwise (· < ·)
      rw [handleMessageAck_pendingAcks, List.map_tail]
      exact hp.tail
    · intro k hk
      simp only [ackKeys] at hk
      rw [handleMessageAck_pendingAcks, List.map_tail] at hk
      rw [handleMessageAck_ackCounter]
      exact hb k (List.mem_of_mem_tail hk)
  | messageUpdated m =>
    show AcksWF (handleMessageUpdated m s)
    have h := handleMessageUpdated_acks m s
    constructor
    · show ((handleMessageUpdated m s).pendingAcks.map Prod.fst).Pairwise (· < ·)
      rw [h.1]; exact hp
    · intro k hk
      simp only [ackKeys] at hk
      rw [h.1] at hk
      show k ≤ (handleMessageUpdated m s).ackCounter
      rw [h.2.2]
      exact hb k hk
  | disconnected code =>
    by_cases hc : code = some SESSION_EXPIRED_CLOSE_CODE
    · show AcksWF (handleDisconnected code s)
      subst hc
      constructor
      · simp [ackKeys, handleDisconnected]
      · intro k hk
        simp [ackKeys, handleDisconnected] at hk
    · show AcksWF (handleDisconnected code s)
      rw [handleDisconnected_other code s hc]
      exact ⟨hp, hb⟩
  | fireTimeout mid =>
    show AcksWF (fireAskTimeout mid s)
    have h := fireAskTimeout_acks mid s
    constructor
    · show ((fireAskTimeout mid s).pendingAcks.map Prod.fst).Pairwise (· < ·)
      rw [h.1]; exact hp
    · intro k hk
      simp only [ackKeys] at hk
      rw [h.1] at hk
      show k ≤ (fireAskTimeout mid s).ackCounter
      rw [h.2.2]
      exact hb k hk
  | callClose =>
    show AcksWF (sessionClose s)
    constructor
    · simp [ackKeys, sessionClose]
    · intro k hk
      simp [ackKeys, sessionClose] at hk

theorem acksAbove_step (c : Nat) (s : SessionState) (e : SEvent)
    (h : AcksAbove c s) : AcksAbove c (sstep s e).1 := by
  obtain ⟨ha, hc⟩ := h
  cases e with
  | callLog =>
    rw [sstep_callLog]
    constructor
    · intro k hk
      simp only [ackKeys, List.map_append, List.map_cons, List.map_nil,
        List.mem_append, List.mem_singleton] at hk
      rcases hk with hk | hk
      · exact ha k hk
      · subst hk; exact Nat.lt_succ_of_le hc
    · exact Nat.le_succ_of_le hc
  | callAsk t =>
    by_cases hrec : s.recipients = []
    · simp only [sstep, hrec, if_true]
      exact ⟨ha, hc⟩
    · rw [sstep_callAsk s t hrec]
      constructor
      · intro k hk
        simp only [ackKeys, List.map_append, List.map_cons, List.map_nil,
          List.mem_append, List.mem_singleton] at hk
        rcases hk with hk | hk
        · exact ha k hk
        · subst hk; exact Nat.lt_succ_of_le hc
      · exact Nat.le_succ_of_le hc
  | messageAck mid =>
    show AcksAbove c (handleMessageAck mid s)
    constructor
    · intro k hk
      simp only [ackKeys] at hk
      rw [handleMessageAck_pendingAcks, List.map_tail] at hk
      exact ha k (List.mem_of_mem_tail hk)
    · show c ≤ (handleMessageAck mid s).ackCounter
      rw [handleMessageAck_ackCounter]
      exact hc
  | messageUpdated m =>
    show AcksAbove c (handleMessageUpdated m s)
    have h := handleMessageUpdated_acks m s
    constructor
    · intro k hk
      simp only [ackKeys] at hk
      rw [h.1] at hk
      exact ha k hk
    · show c ≤ (handleMessageUpdated m s).ackCounter
      rw [h.2.2]
      exact hc
  | disconnected code =>
    by_cases hcode : code = some SESSION_EXPIRED_CLOSE_CODE
    · show AcksAbove c (handleDisconnected code s)
      subst hcode
      constructor
      · intro k hk
        simp [ackKeys, handleDisconnected] at hk
      · show c ≤ (handleDisconnected (some SESSION_EXPIRED_CLOSE_CODE) s).ackCounter
        simp only [handleDisconnected, if_pos rfl]
        exact hc
    · show AcksAbove c (handleDisconnected code s)
      rw [handleDisconnected_other code s hcode]
      exact ⟨ha, hc⟩
  | fireTimeout mid =>
    show AcksAbove c (fireAskTimeout mid s)
    have h := fireAskTimeout_acks mid s
    constructor
    · intro k hk
      simp only [ackKeys] at hk
      rw [h.1] at hk
      exact ha k hk
    · show c ≤ (fireAskTimeout mid s).ackCounter
      rw [h.2.2]
      exact hc
  | callClose =>
    show AcksAbove c (sessionClose s)
    constructor
    · intro k hk
      simp [ackKeys, sessionClose] at hk
    · show c ≤ (sessionClose s).ackCounter
      simp only [sessionClose]
      exact hc

theorem resolvedAcks_above (c : Nat) (s : SessionState) (evs : List SEvent)
    (h : AcksAbove c s) : ∀ a ∈ resolvedAcks s evs, c < a := by
  induction evs generalizing s with
  | nil => intro a ha; simp [resolvedAcks] at ha
  | cons e evs ih =>
    intro a ha
    rw [resolvedAcks, List.mem_append] at ha
    rcases ha with ha | ha
    · cases e with
      | messageAck mid =>
        cases hpa : s.pendingAcks with
        | nil => simp [ackResolvedBy, hpa] at ha
        | cons hd rest =>
          simp only [ackResolvedBy, hpa, List.mem_singleton] at ha
          subst ha
          exact h.1 hd.1 (by simp [ackKeys, hpa])
      | callLog => simp [ackResolvedBy] at ha
      | callAsk t => simp [ackResolvedBy] at ha
      | messageUpdated m => simp [ackResolvedBy] at ha
      | disconnected code => simp [ackResolvedBy] at ha
      | fireTimeout mid => simp [ackResolvedBy] at ha
      | callClose => simp [ackResolvedBy] at ha
    · exact ih _ (acksAbove_step c s e ⟨h.1, h.2⟩) a ha

theorem resolvedAcks_pairwise (s : SessionState) (evs : List SEvent)
    (h : AcksWF s) : (resolvedAcks s evs).Pairwise (· < ·) := by
  induction evs generalizing s with
  | nil => simp [resolvedAcks]
  | cons e evs ih =>
    have hnext := acksWF_step s e h
    rw [resolvedAcks]
    cases e with
    | messageAck mid =>
      cases hpa : s.pendingAcks with
      | nil =>
        simp only [ackResolvedBy, hpa, List.nil_append]
        exact ih _ hnext
      | cons hd rest =>
        simp only [ackResolvedBy, hpa, List.singleton_append]
        rw [List.pairwise_cons]
        refine ⟨?_, ih _ hnext⟩
        intro a ha
        refine resolvedAcks_above hd.1 _ evs ⟨?_, ?_⟩ a ha
        · intro k hk
          simp only [ackKeys] at hk
          have hpq : (sstep s (SEvent.messageAck mid)).1 = handleMessageAck mid s := rfl
          rw [hpq, handleMessageAck_pendingAcks, hpa, List.tail_cons] at hk
          have hcons := h.1
          simp only [ackKeys, hpa, List.map_cons, List.pairwise_cons] at hcons
          exact hcons.1 k hk
        · have hpq : (sstep s (SEvent.messageAck mid)).1 = handleMessageAck mid s := rfl
          rw [hpq, handleMessageAck_ackCounter]
          exact h.2 hd.1 (by simp [ackKeys, hpa])
    | callLog =>
      simp only [ackResolvedBy, List.nil_append]
      exact ih _ hnext
    | callAsk t =>
      simp only [ackResolvedBy, List.nil_append]
      exact ih _ hnext
    | messageUpdated m =>
      simp only [ackResolvedBy, List.nil_append]
      exact ih _ hnext
    | disconnected code =>
      simp only [ackResolvedBy, List.nil_append]
      exact ih _ hnext
    | fireTimeout mid =>
      simp only [ackResolvedBy, List.nil_append]
      exact ih _ hnext
    | callClose =>
      simp only [ackResolvedBy, List.nil_append]
      exact ih _ hnext

/-- Clearing every timer whose id is a key of the pending map empties the
timer list when it consisted exactly of those keys. -/
theorem foldl_erase_keys {β : Type} (pend : List (String × β)) :
    pend.foldl (fun ts kv => ts.erase kv.1) (pend.map Prod.fst) = [] := by
  induction pend with
  | nil => rfl
  | cons hd tl ih =>
    simp only [List.foldl_cons, List.map_cons]
    rw [List.erase_cons_head]
    exact ih

/-! ### Claim theorems: the correlation engine -/

/-- C1: a `message_ack` event resolves exactly the oldest still-pending
`PendingAck` entry (the first key in insertion order) with the delivered
permanent id and removes it, leaving every other caller outcome untouched;
an ack arriving when no entry is pending resolves nothing; and over any
event trace interleaved in any way from a fresh session, the ack keys
resolved by acknowledgments form a strictly increasing sequence — strict
send order, since keys are allocated by the monotone counter at send time. -/
theorem ack_fifo_resolution :
    (∀ (s : SessionState) (mid : String),
      s.pendingAcks = [] → sstep s (.messageAck mid) = (s, [])) ∧
    (∀ (s : SessionState) (mid : String) (k : Nat) (kind : AckKind)
      (rest : List (Nat × AckKind)),
      s.pendingAcks = (k, kind) :: rest →
      lookupA k s.ackOutcomes = none →
      (sstep s (.messageAck mid)).1.pendingAcks = rest ∧
      lookupA k (sstep s (.messageAck mid)).1.ackOutcomes =
        some (.acked mid) ∧
      ∀ j, j ≠ k →
        lookupA j (sstep s (.messageAck mid)).1.ackOutcomes =
          lookupA j s.ackOutcomes) ∧
    (∀ (recipients : List String) (evs : List SEvent),
      (resolvedAcks (initialSession recipients) evs).Pairwise (· < ·)) := by
  refine ⟨?_, ?_, ?_⟩
  · intro s mid h
    show (handleMessageAck mid s, ([] : List SAction)) = (s, [])
    rw [show handleMessageAck mid s = s by simp [handleMessageAck, h]]
  · intro s mid k kind rest hpa hout
    have h1 : (sstep s (.messageAck mid)).1 = handleMessageAck mid s := rfl
    refine ⟨?_, ?_, ?_⟩
    · rw [h1, handleMessageAck_pendingAcks, hpa, List.tail_cons]
    · rw [h1, handleMessageAck_ackOutcomes]
      simp only [hpa]
      exact lookupA_settle_none k _ _ hout
    · intro j hj
      rw [h1, handleMessageAck_ackOutcomes]
      simp only [hpa]
      exact lookupA_settle_ne k j _ _ hj
  · intro recipients evs
    refine resolvedAcks_pairwise _ evs ⟨?_, ?_⟩
    · simp [ackKeys, initialSession]
    · intro k hk
      simp [ackKeys, initialSession] at hk

theorem ack_fifo_resolution_witness :
    sstep (initialSession ["r"]) (SEvent.messageAck "m0") =
      (initialSession ["r"], []) ∧
    (sstep (srun (initialSession ["r"]) [SEvent.callLog, SEvent.callLog])
        (SEvent.messageAck "m1")).1.pendingAcks = [(2, AckKind.forLog)] ∧
    lookupA 1 (sstep (srun (initialSession ["r"]) [SEvent.callLog, SEvent.callLog])
        (SEvent.messageAck "m1")).1.ackOutcomes =
      some (AckOutcome.acked "m1") ∧
    lookupA 2 (sstep (srun (initialSession ["r"]) [SEvent.callLog, SEvent.callLog])
        (SEvent.messageAck "m1")).1.ackOutcomes =
      lookupA 2 (srun (initialSession ["r"])
        [SEvent.callLog, SEvent.callLog]).ackOutcomes :=
  ⟨ack_fifo_resolution.1 (initialSession ["r"]) "m0" rfl,
    (ack_fifo_resolution.2.1 (srun (initialSession ["r"])
        [SEvent.callLog, SEvent.callLog]) "m1" 1 .forLog [(2, .forLog)]
      (by rfl) (by rfl)).1,
    (ack_fifo_resolution.2.1 (srun (initialSession ["r"])
        [SEvent.callLog, SEvent.callLog]) "m1" 1 .forLog [(2, .forLog)]
      (by rfl) (by rfl)).2.1,
    (ack_fifo_resolution.2.1 (srun (initialSession ["r"])
        [SEvent.callLog, SEvent.callLog]) "m1" 1 .forLog [(2, .forLog)]
      (by rfl) (by rfl)).2.2 2 (by decide)⟩

/-- C10: a `PendingAck` entry carries no deadline of its own: the firing of a
question deadline timer never removes a pending ack nor settles an ack
caller, and the only events that can settle an ack caller's outcome or
remove a pending ack entry are an ack arrival, the session-invalidation
close signal, and explicit close of the session. -/
theorem pendingAck_no_deadline :
    (∀ (s : SessionState) (mid : String),
      (sstep s (.fireTimeout mid)).1.pendingAcks = s.pendingAcks ∧
      (sstep s (.fireTimeout mid)).1.ackOutcomes = s.ackOutcomes) ∧
    (∀ (s : SessionState) (e : SEvent) (k : Nat),
      lookupA k (sstep s e).1.ackOutcomes ≠ lookupA k s.ackOutcomes →
      (∃ mid, e = .messageAck mid) ∨
        e = .disconnected (some SESSION_EXPIRED_CLOSE_CODE) ∨ e = .callClose) ∧
    (∀ (s : SessionState) (e : SEvent) (k : Nat),
      k ∈ ackKeys s → k ∉ ackKeys (sstep s e).1 →
      (∃ mid, e = .messageAck mid) ∨
        e = .disconnected (some SESSION_EXPIRED_CLOSE_CODE) ∨ e = .callClose) := by
  refine ⟨?_, ?_, ?_⟩
  · intro s mid
    exact ⟨(fireAskTimeout_acks mid s).1, (fireAskTimeout_acks mid s).2.1⟩
  · intro s e k h
    cases e with
    | callLog => exact absurd (by rw [sstep_callLog]) h
    | callAsk t =>
      by_cases hrec : s.recipients = []
      · exact absurd (by simp [sstep, hrec]) h
      · exact absurd (by rw [sstep_callAsk s t hrec]) h
    | messageAck mid => exact Or.inl ⟨mid, rfl⟩
    | messageUpdated m =>
      exact absurd (by rw [show (sstep s (.messageUpdated m)).1 =
        handleMessageUpdated m s from rfl, (handleMessageUpdated_acks m s).2.1]) h
    | disconnected code =>
      by_cases hc : code = some SESSION_EXPIRED_CLOSE_CODE
      · subst hc; exact Or.inr (Or.inl rfl)
      · exact absurd (by rw [show (sstep s (.disconnected code)).1 =
          handleDisconnected code s from rfl, handleDisconnected_other code s hc]) h
    | fireTimeout mid =>
      exact absurd (by rw [show (sstep s (.fireTimeout mid)).1 =
        fireAskTimeout mid s from rfl, (fireAskTimeout_acks mid s).2.1]) h
    | callClose => exact Or.inr (Or.inr rfl)
  · intro s e k hmem hnot
    cases e with
    | callLog =>
      refine absurd ?_ hnot
      rw [sstep_callLog]
      simp only [ackKeys, List.map_append, List.mem_append]
      exact Or.inl hmem
    | callAsk t =>
      by_cases hrec : s.recipients = []
      · exact absurd (by simpa [sstep, hrec] using hmem) hnot
      · refine absurd ?_ hnot
        rw [sstep_callAsk s t hrec]
        simp only [ackKeys, List.map_append, List.mem_append]
        exact Or.inl hmem
    | messageAck mid => exact Or.inl ⟨mid, rfl⟩
    | messageUpdated m =>
      refine absurd ?_ hnot
      show k ∈ (handleMessageUpdated m s).pendingAcks.map Prod.fst
      rw [(handleMessageUpdated_acks m s).1]
      exact hmem
    | disconnected code =>
      by_cases hc : code = some SESSION_EXPIRED_CLOSE_CODE
      · subst hc; exact Or.inr (Or.inl rfl)
      · refine absurd ?_ hnot
        show k ∈ (handleDisconnected code s).pendingAcks.map Prod.fst
        rw [handleDisconnected_other code s hc]
        exact hmem
    | fireTimeout mid =>
      refine absurd ?_ hnot
      show k ∈ (fireAskTimeout mid s).pendingAcks.map Prod.fst
      rw [(fireAskTimeout_acks mid s).1]
      exact hmem
    | callClose => exact Or.inr (Or.inr rfl)

theorem pendingAck_no_deadline_witness :
    ((sstep (srun (initialSession ["r"]) [SEvent.callLog])
        (SEvent.fireTimeout "q")).1.pendingAcks =
      (srun (initialSession ["r"]) [SEvent.callLog]).pendingAcks) ∧
    ((∃ mid, SEvent.callClose = SEvent.messageAck mid) ∨
      SEvent.callClose = SEvent.disconnected (some SESSION_EXPIRED_CLOSE_CODE) ∨
      SEvent.callClose = SEvent.callClose) :=
  ⟨(pendingAck_no_deadline.1 (srun (initialSession ["r"]) [SEvent.callLog]) "q").1,
    pendingAck_no_deadline.2.1 (srun (initialSession ["r"]) [SEvent.callLog])
      SEvent.callClose 1 (by decide)⟩

/-- C4: on the distinguished session-invalidation close code, both pending
maps end empty, every pending question's deadline timer is cancelled, every
formerly pending ack and question caller is rejected with the session-expired
failure, a settled outcome never changes again over any further events
(so the rejection happens exactly once), and a disconnect with any other
close code rejects nothing and leaves the state untouched. -/
theorem session_invalidation_teardown :
    (∀ s : SessionState,
      (sstep s (.disconnected (some SESSION_EXPIRED_CLOSE_CODE))).1.pendingAcks = [] ∧
      (sstep s (.disconnected (some SESSION_EXPIRED_CLOSE_CODE))).1.pendingQuestions = []) ∧
    (∀ s : SessionState,
      s.activeTimers = s.pendingQuestions.map Prod.fst →
      (sstep s (.disconnected (some SESSION_EXPIRED_CLOSE_CODE))).1.activeTimers = []) ∧
    (∀ (s : SessionState) (k : Nat),
      k ∈ ackKeys s → lookupA k s.ackOutcomes = none →
      lookupA k (sstep s (.disconnected (some SESSION_EXPIRED_CLOSE_CODE))).1.ackOutcomes =
        some (.failed .sessionExpired)) ∧
    (∀ (s : SessionState) (q : String),
      q ∈ s.pendingQuestions.map Prod.fst → lookupA q s.questionOutcomes = none →
      lookupA q (sstep s (.disconnected (some SESSION_EXPIRED_CLOSE_CODE))).1.questionOutcomes =
        some (.failed .sessionExpired)) ∧
    (∀ (s : SessionState) (evs : List SEvent) (k : Nat) (v : AckOutcome),
      lookupA k s.ackOutcomes = some v →
      lookupA k (srun s evs).ackOutcomes = some v) ∧
    (∀ (s : SessionState) (evs : List SEvent) (q : String) (v : QOutcome),
      lookupA q s.questionOutcomes = some v →
      lookupA q (srun s evs).questionOutcomes = some v) ∧
    (∀ (s : SessionState) (code : Option Nat),
      code ≠ some SESSION_EXPIRED_CLOSE_CODE →
      sstep s (.disconnected code) = (s, [])) := by
  refine ⟨?_, ?_, ?_, ?_, ?_, ?_, ?_⟩
  · intro s
    constructor <;> simp [sstep, handleDisconnected]
  · intro s ht
    show (handleDisconnected (some SESSION_EXPIRED_CLOSE_CODE) s).activeTimers = []
    simp only [handleDisconnected, if_pos rfl]
    rw [ht]
    exact foldl_erase_keys s.pendingQuestions
  · intro s k hmem hnone
    show lookupA k (handleDisconnected (some SESSION_EXPIRED_CLOSE_CODE) s).ackOutcomes =
      some (.failed .sessionExpired)
    simp only [handleDisconnected, if_pos rfl]
    exact settleAll_mem _ k s.pendingAcks s.ackOutcomes hmem hnone
  · intro s q hmem hnone
    show lookupA q (handleDisconnected (some SESSION_EXPIRED_CLOSE_CODE) s).questionOutcomes =
      some (.failed .sessionExpired)
    simp only [handleDisconnected, if_pos rfl]
    exact settleAll_mem _ q s.pendingQuestions s.questionOutcomes hmem hnone
  · exact ackOutcome_stable_run
  · exact questionOutcome_stable_run
  · intro s code hc
    show (handleDisconnected code s, ([] : List SAction)) = (s, [])
    rw [handleDisconnected_other code s hc]

theorem session_invalidation_teardown_witness :
    ((sstep (srun (initialSession ["r"])
          [SEvent.callAsk 500, SEvent.messageAck "q1", SEvent.callLog])
        (SEvent.disconnected (some SESSION_EXPIRED_CLOSE_CODE))).1.activeTimers = []) ∧
    (lookupA 2 (sstep (srun (initialSession ["r"])
          [SEvent.callAsk 500, SEvent.messageAck "q1", SEvent.callLog])
        (SEvent.disconnected (some SESSION_EXPIRED_CLOSE_CODE))).1.ackOutcomes =
      some (.failed .sessionExpired)) ∧
    (lookupA "q1" (sstep (srun (initialSession ["r"])
          [SEvent.callAsk 500, SEvent.messageAck "q1", SEvent.callLog])
        (SEvent.disconnected (some SESSION_EXPIRED_CLOSE_CODE))).1.questionOutcomes =
      some (.failed .sessionExpired)) ∧
    sstep (srun (initialSession ["r"]) [SEvent.callLog])
      (SEvent.disconnected (some 1000)) =
      (srun (initialSession ["r"]) [SEvent.callLog], []) :=
  ⟨session_invalidation_teardown.2.1 (srun (initialSession ["r"])
      [SEvent.callAsk 500, SEvent.messageAck "q1", SEvent.callLog]) (by rfl),
    session_invalidation_teardown.2.2.1 (srun (initialSession ["r"])
      [SEvent.callAsk 500, SEvent.messageAck "q1", SEvent.callLog]) 2
      (by decide) (by rfl),
    session_invalidation_teardown.2.2.2.1 (srun (initialSession ["r"])
      [SEvent.callAsk 500, SEvent.messageAck "q1", SEvent.callLog]) "q1"
      (by decide) (by rfl),
    session_invalidation_teardown.2.2.2.2.2.2 (srun (initialSession ["r"])
      [SEvent.callLog]) (some 1000) (by decide)⟩

/-- C9: `ask` on a session whose recipient list is empty throws the
`BadRequestError` guard (the spec's ValidationError kind) and nothing else
happens: the returned state is unchanged — pending maps, ack counter and
the connection flag included — and the only observable action is the throw,
so no connection is established and no payload is transmitted. -/
theorem ask_empty_recipients_guard :
    ∀ (s : SessionState) (t : Nat), s.recipients = [] →
      sstep s (.callAsk t) = (s, [SAction.threwBadRequest]) := by
  intro s t h
  simp [sstep, h]

theorem ask_empty_recipients_guard_witness :
    sstep (initialSession []) (.callAsk DEFAULT_ASK_TIMEOUT) =
      (initialSession [], [SAction.threwBadRequest]) :=
  ask_empty_recipients_guard (initialSession []) DEFAULT_ASK_TIMEOUT rfl

/-- C5: when a pending question's deadline timer fires, the entry is removed
from the pending map, its timer is gone, and the caller is rejected with the
timeout failure; a `messageUpdated` event for an id with no pending entry
leaves the whole state unchanged (a late response has no observable effect);
and a settled question outcome never changes again over any further events
(each pending question is resolved or rejected at most once). -/
theorem question_timeout_exclusive :
    (∀ (s : SessionState) (mid : String) (t : Nat),
      lookupA mid s.pendingQuestions = some t →
      mid ∈ s.activeTimers →
      lookupA mid s.questionOutcomes = none →
      (s.pendingQuestions.map Prod.fst).Nodup →
      s.activeTimers.Nodup →
      lookupA mid (sstep s (.fireTimeout mid)).1.pendingQuestions = none ∧
      lookupA mid (sstep s (.fireTimeout mid)).1.questionOutcomes =
        some (.failed .timeout) ∧
      mid ∉ (sstep s (.fireTimeout mid)).1.activeTimers) ∧
    (∀ (s : SessionState) (m : MessageView),
      lookupA m.id s.pendingQuestions = none →
      sstep s (.messageUpdated m) = (s, [])) ∧
    (∀ (s : SessionState) (evs : List SEvent) (q : String) (v : QOutcome),
      lookupA q s.questionOutcomes = some v →
      lookupA q (srun s evs).questionOutcomes = some v) := by
  refine ⟨?_, ?_, questionOutcome_stable_run⟩
  · intro s mid t hpend htimer hout hnd hndt
    have h1 : (sstep s (.fireTimeout mid)).1 = fireAskTimeout mid s := rfl
    refine ⟨?_, ?_, ?_⟩
    · rw [h1]
      simp only [fireAskTimeout, htimer, if_pos]
      exact lookupA_eraseA_self mid s.pendingQuestions hnd
    · rw [h1]
      simp only [fireAskTimeout, htimer, if_pos]
      exact lookupA_settle_none mid _ _ hout
    · rw [h1]
      simp only [fireAskTimeout, htimer, if_pos]
      exact hndt.not_mem_erase
  · intro s m h
    show (handleMessageUpdated m s, ([] : List SAction)) = (s, [])
    unfold handleMessageUpdated handleResponse
    cases hrc : m.responseContent with
    | none => rfl
    | some content =>
      by_cases hm : m.mtype = MsgType.ask
      · simp [hm, h]
      · simp [hm]

theorem question_timeout_exclusive_witness :
    (lookupA "q1" (sstep (srun (initialSession ["r"])
          [SEvent.callAsk 500, SEvent.messageAck "q1"])
        (SEvent.fireTimeout "q1")).1.pendingQuestions = none) ∧
    (lookupA "q1" (sstep (srun (initialSession ["r"])
          [SEvent.callAsk 500, SEvent.messageAck "q1"])
        (SEvent.fireTimeout "q1")).1.questionOutcomes =
      some (.failed .timeout)) ∧
    sstep (srun (initialSession ["r"])
        [SEvent.callAsk 500, SEvent.messageAck "q1", SEvent.fireTimeout "q1"])
      (SEvent.messageUpdated ⟨"q1", .ask, some "yes"⟩) =
      (srun (initialSession ["r"])
        [SEvent.callAsk 500, SEvent.messageAck "q1", SEvent.fireTimeout "q1"], []) :=
  ⟨(question_timeout_exclusive.1 (srun (initialSession ["r"])
        [SEvent.callAsk 500, SEvent.messageAck "q1"]) "q1" 500 (by rfl)
      (by decide) (by rfl) (by decide) (by decide)).1,
    (question_timeout_exclusive.1 (srun (initialSession ["r"])
        [SEvent.callAsk 500, SEvent.messageAck "q1"]) "q1" 500 (by rfl)
      (by decide) (by rfl) (by decide) (by decide)).2.1,
    question_timeout_exclusive.2.1 (srun (initialSession ["r"])
        [SEvent.callAsk 500, SEvent.messageAck "q1", SEvent.fireTimeout "q1"])
      ⟨"q1", .ask, some "yes"⟩ (by rfl)⟩

/-! ### Claim theorems: decode best-effort (C2) and the derived shape (C3) -/

/-- C2 counterexample: the claim says any payload not conforming to the
derived shape is returned as the raw text content, but `handleResponse`
performs no validation against the shape — for the question with descriptor
list `[confirm "approved"]` the payload `\x7b"approved":"maybe"\x7d` is valid
JSON that does not conform to the derived shape, yet the decode step returns
the parsed object, not the raw text. -/
theorem decode_no_validation_counterexample :
    jsonParse "\x7b\"approved\":\"maybe\"\x7d" =
      some (Json.obj [("approved", Json.str "maybe")]) ∧
    specConforms (responseShape [Input.confirm "approved"])
      (Json.obj [("approved", Json.str "maybe")]) = false ∧
    decodeResponseContent "\x7b\"approved\":\"maybe\"\x7d" =
      Json.obj [("approved", Json.str "maybe")] ∧
    decodeResponseContent "\x7b\"approved\":\"maybe\"\x7d" ≠
      Json.str "\x7b\"approved\":\"maybe\"\x7d" := by
  refine ⟨by rfl, by rfl, by rfl, ?_⟩
  rw [show decodeResponseContent "\x7b\"approved\":\"maybe\"\x7d" =
    Json.obj [("approved", Json.str "maybe")] from rfl]
  exact fun h => Json.noConfusion h

/-- C2 (amended): decoding is best-effort with no validation against the
derived shape — a payload that parses as JSON is resolved to the caller as
the parsed value, a non-JSON payload is resolved as the raw text content,
and the `messageUpdated` handling never rejects a caller: every question
outcome it touches becomes a resolution with a decoded value. -/
theorem decode_best_effort :
    (∀ (content : String) (v : Json),
      jsonParse content = some v → decodeResponseContent content = v) ∧
    (∀ content : String,
      jsonParse content = none → decodeResponseContent content = Json.str content) ∧
    (∀ (s : SessionState) (m : MessageView) (t : Nat) (content : String),
      m.responseContent = some content → m.mtype = .ask →
      lookupA m.id s.pendingQuestions = some t →
      lookupA m.id s.questionOutcomes = none →
      lookupA m.id (sstep s (.messageUpdated m)).1.questionOutcomes =
        some (.answered (decodeResponseContent content))) ∧
    (∀ (s : SessionState) (m : MessageView) (q : String),
      lookupA q (sstep s (.messageUpdated m)).1.questionOutcomes =
        lookupA q s.questionOutcomes ∨
      ∃ v, lookupA q (sstep s (.messageUpdated m)).1.questionOutcomes =
        some (.answered v)) := by
  refine ⟨?_, ?_, ?_, ?_⟩
  · intro content v h
    unfold decodeResponseContent
    rw [h]
  · intro content h
    unfold decodeResponseContent
    rw [h]
  · intro s m t content hrc hm hq hout
    have hgoal : (handleMessageUpdated m s).questionOutcomes =
        settle m.id (.answered (decodeResponseContent content)) s.questionOutcomes := by
      simp [handleMessageUpdated, handleResponse, hrc, hm, hq]
    show lookupA m.id (handleMessageUpdated m s).questionOutcomes = _
    rw [hgoal]
    exact lookupA_settle_none m.id _ _ hout
  · intro s m q
    show lookupA q (handleMessageUpdated m s).questionOutcomes =
        lookupA q s.questionOutcomes ∨ _
    cases hrc : m.responseContent with
    | none => exact Or.inl (by simp [handleMessageUpdated, hrc])
    | some content =>
      by_cases hm : m.mtype = MsgType.ask
      · cases hq : lookupA m.id s.pendingQuestions with
        | none =>
          exact Or.inl (by simp [handleMessageUpdated, handleResponse, hrc, hm, hq])
        | some t =>
          have hgoal : (handleMessageUpdated m s).questionOutcomes =
              settle m.id (.answered (decodeResponseContent content))
                s.questionOutcomes := by
            simp [handleMessageUpdated, handleResponse, hrc, hm, hq]
          by_cases hqid : q = m.id
          · subst hqid
            cases hv : lookupA m.id s.questionOutcomes with
            | none =>
              refine Or.inr ⟨decodeResponseContent content, ?_⟩
              show lookupA m.id (handleMessageUpdated m s).questionOutcomes = _
              rw [hgoal]
              exact lookupA_settle_none m.id _ _ hv
            | some w =>
              refine Or.inl ?_
              rw [hgoal, lookupA_settle_stable m.id m.id _ w _ hv]
          · refine Or.inl ?_
            rw [hgoal]
            exact lookupA_settle_ne m.id q _ _ hqid
      · exact Or.inl (by simp [handleMessageUpdated, hrc, hm])

theorem decode_best_effort_witness :
    decodeResponseContent "true" = Json.bool true ∧
    decodeResponseContent "yes" = Json.str "yes" ∧
    lookupA "q1" (sstep (srun (initialSession ["r"])
          [SEvent.callAsk 500, SEvent.messageAck "q1"])
        (SEvent.messageUpdated ⟨"q1", .ask, some "yes"⟩)).1.questionOutcomes =
      some (.answered (decodeResponseContent "yes")) ∧
    (lookupA "zz" (sstep (initialSession ["r"])
        (SEvent.messageUpdated ⟨"zz", .ask, some "yes"⟩)).1.questionOutcomes =
      lookupA "zz" (initialSession ["r"]).questionOutcomes ∨
    ∃ v, lookupA "zz" (sstep (initialSession ["r"])
        (SEvent.messageUpdated ⟨"zz", .ask, some "yes"⟩)).1.questionOutcomes =
      some (.answered v)) :=
  ⟨decode_best_effort.1 "true" (Json.bool true) (by rfl),
    decode_best_effort.2.1 "yes" (by rfl),
    decode_best_effort.2.2.1 (srun (initialSession ["r"])
        [SEvent.callAsk 500, SEvent.messageAck "q1"])
      ⟨"q1", .ask, some "yes"⟩ 500 "yes" rfl rfl (by rfl) (by rfl),
    decode_best_effort.2.2.2 (initialSession ["r"]) ⟨"zz", .ask, some "yes"⟩ "zz"⟩

/-- Lookup in an association list is invariant under permutation when the
keys are unique. -/
theorem lookupA_perm {α β : Type} [DecidableEq α] {l₁ l₂ : List (α × β)}
    (h : l₁.Perm l₂) :
    ∀ (_ : (l₁.map Prod.fst).Nodup) (k : α), lookupA k l₁ = lookupA k l₂ := by
  induction h with
  | nil => intro _ k; rfl
  | cons x h ih =>
    intro hnd k
    obtain ⟨kx, vx⟩ := x
    simp only [List.map_cons, List.nodup_cons] at hnd
    simp only [lookupA]
    by_cases hk : k = kx
    · simp [hk]
    · simp only [hk, if_false]
      exact ih hnd.2 k
  | swap x y l =>
    intro hnd k
    obtain ⟨kx, vx⟩ := x
    obtain ⟨ky, vy⟩ := y
    simp only [List.map_cons, List.nodup_cons, List.mem_cons, not_or] at hnd
    have hxy : ky ≠ kx := hnd.1.1
    simp only [lookupA]
    by_cases h1 : k = ky <;> by_cases h2 : k = kx
    · exact absurd (h1.symm.trans h2) hxy
    · simp [h1, h2, hxy]
    · simp [h1, h2, Ne.symm hxy]
    · simp [h1, h2]
  | trans h₁ h₂ ih₁ ih₂ =>
    intro hnd k
    exact (ih₁ hnd k).trans (ih₂ ((h₁.map Prod.fst).nodup hnd) k)

/-- C3: the derived response record contains exactly the declared field
names in declaration order; each declared field is typed by the per-kind
mapping (confirm → boolean, select with the multiple flag → string sequence,
select without it → string, text → string); and for unique-named descriptor
lists, permuting the descriptors leaves the keyed shape unchanged. -/
theorem derived_shape_contract :
    (∀ inputs : List Input,
      (responseShape inputs).map Prod.fst = inputs.map Input.name) ∧
    (∀ (inputs : List Input) (i : Input),
      i ∈ inputs → (inputs.map Input.name).Nodup →
      shapeLookup inputs i.name = some (responseTypeFromInput i)) ∧
    (∀ n, responseTypeFromInput (.confirm n) = .boolean) ∧
    (∀ n, responseTypeFromInput (.select n true) = .stringList) ∧
    (∀ n, responseTypeFromInput (.select n false) = .string) ∧
    (∀ n, responseTypeFromInput (.text n) = .string) ∧
    (∀ l₁ l₂ : List Input, l₁.Perm l₂ → (l₁.map Input.name).Nodup →
      ∀ n, shapeLookup l₁ n = shapeLookup l₂ n) := by
  refine ⟨?_, ?_, fun n => rfl, fun n => rfl, fun n => rfl, fun n => rfl, ?_⟩
  · intro inputs
    unfold responseShape
    rw [List.map_map]
    rfl
  · intro inputs i hmem hnd
    induction inputs with
    | nil => cases hmem
    | cons hd tl ih =>
      simp only [List.map_cons, List.nodup_cons] at hnd
      rcases List.mem_cons.mp hmem with h | h
      · subst h
        simp [shapeLookup, responseShape, lookupA]
      · by_cases hname : i.name = hd.name
        · exact absurd (hname ▸ List.mem_map_of_mem Input.name h) hnd.1
        · have : shapeLookup (hd :: tl) i.name = shapeLookup tl i.name := by
            simp [shapeLookup, responseShape, lookupA, hname]
          rw [this]
          exact ih h hnd.2
  · intro l₁ l₂ hperm hnd n
    unfold shapeLookup
    refine lookupA_perm (hperm.map _) ?_ n
    rw [List.map_map]
    exact hnd

theorem derived_shape_contract_witness :
    (responseShape [Input.confirm "approved", Input.text "notes"]).map Prod.fst =
      ["approved", "notes"] ∧
    shapeLookup [Input.confirm "approved", Input.text "notes"] "approved" =
      some FieldTy.boolean ∧
    shapeLookup [Input.confirm "approved", Input.text "notes"] "notes" =
      some FieldTy.string ∧
    (∀ n, shapeLookup [Input.confirm "approved", Input.text "notes"] n =
      shapeLookup [Input.text "notes", Input.confirm "approved"] n) :=
  ⟨derived_shape_contract.1 [Input.confirm "approved", Input.text "notes"],
    derived_shape_contract.2.1 [Input.confirm "approved", Input.text "notes"]
      (Input.confirm "approved") (by decide) (by decide),
    derived_shape_contract.2.1 [Input.confirm "approved", Input.text "notes"]
      (Input.text "notes") (by decide) (by decide),
    derived_shape_contract.2.2.2.2.2.2
      [Input.confirm "approved", Input.text "notes"]
      [Input.text "notes", Input.confirm "approved"]
      (List.Perm.swap _ _ _) (by decide)⟩

/-! ### Computation lemmas for the connection step function -/

theorem lookupA_settle_inv {α β : Type} [DecidableEq α] (k p : α) (v w : β)
    (m : List (α × β)) (h : lookupA p (settle k v m) = some w) :
    lookupA p m = some w ∨ (p = k ∧ v = w ∧ lookupA k m = none) := by
  unfold settle at h
  cases hk : lookupA k m with
  | some u => rw [hk] at h; exact Or.inl h
  | none =>
    rw [hk] at h
    by_cases hp : p = k
    · subst hp
      rw [lookupA_setA_self p v m] at h
      exact Or.inr ⟨rfl, Option.some.inj h, rfl⟩
    · rw [lookupA_setA_ne k p v m hp] at h
      exact Or.inl h

theorem connConnect_existing (s : ConnState) (p : Nat)
    (h : s.connectPromise = some p) : connConnect s = (s, .sharedExisting p, []) := by
  unfold connConnect
  rw [h]

theorem connConnect_immediate (s : ConnState) (h1 : s.connectPromise = none)
    (h2 : s.status = .connected) : connConnect s = (s, .immediate, []) := by
  unfold connConnect
  rw [h1]
  simp [h2]

theorem connConnect_fields (s : ConnState) :
    (connConnect s).1.promiseOutcomes = s.promiseOutcomes ∧
    (connConnect s).1.reconnectTimer = s.reconnectTimer ∧
    (connConnect s).1.manualClose = s.manualClose ∧
    (connConnect s).1.reconnectAttempts = s.reconnectAttempts := by
  unfold connConnect
  cases hp : s.connectPromise with
  | some p => exact ⟨rfl, rfl, rfl, rfl⟩
  | none => by_cases hs : s.status = ConnStatus.connected <;> simp [hs]

theorem connHandleMessage_fields (m : ServerMsg) (s : ConnState) :
    (connHandleMessage m s).manualClose = s.manualClose ∧
    (connHandleMessage m s).reconnectTimer = s.reconnectTimer := by
  cases m with
  | connected => cases hp : s.connectPromise <;> simp [connHandleMessage, hp]
  | message => exact ⟨rfl, rfl⟩
  | messageUpdated => exact ⟨rfl, rfl⟩
  | messageAck => exact ⟨rfl, rfl⟩
  | errorMsg => exact ⟨rfl, rfl⟩

theorem connHandleClose_fields (opts : ConnOpts) (jitter : ℚ) (s : ConnState) :
    (connHandleClose opts jitter s).1.reconnectAttempts = s.reconnectAttempts ∧
    (connHandleClose opts jitter s).1.manualClose = s.manualClose := by
  unfold connHandleClose scheduleReconnect
  cases hp : s.connectPromise <;>
    by_cases hcond : s.manualClose = false ∧ opts.autoReconnect = true <;>
      by_cases hcap : s.reconnectAttempts ≥ opts.maxReconnectAttempts <;>
        simp [hp, hcond, hcap]

theorem connClose_fields (s : ConnState) :
    (connClose s).1.manualClose = true ∧
    (connClose s).1.reconnectTimer = none ∧
    (connClose s).1.status = ConnStatus.disconnected ∧
    (connClose s).1.wsAttached = false ∧
    (connClose s).1.reconnectAttempts = s.reconnectAttempts ∧
    (connClose s).1.promiseOutcomes = s.promiseOutcomes := by
  unfold connClose
  cases htv : s.reconnectTimer <;> by_cases hw : s.wsAttached <;> simp [htv, hw]

/-! ### Claim theorems: the connection manager -/

/-- C6: `connect()` is idempotent — a call while an attempt is in flight
returns the memoised promise with the state (channel count included)
untouched, a call while connected returns an immediately resolved promise
with the state untouched; the transport-level open event changes nothing at
all; a connect promise is resolved successfully only by the protocol-level
`connected` handshake frame; and when the handshake frame arrives for a
pending promise it resolves it and enters the `connected` status. -/
theorem connect_idempotent :
    (∀ (s : ConnState) (p : Nat), s.connectPromise = some p →
      connConnect s = (s, .sharedExisting p, [])) ∧
    (∀ s : ConnState, s.connectPromise = none → s.status = .connected →
      connConnect s = (s, .immediate, [])) ∧
    (∀ (opts : ConnOpts) (jitter : ℚ) (s : ConnState),
      cstep opts jitter s .wsOpen = (s, [])) ∧
    (∀ (opts : ConnOpts) (jitter : ℚ) (s : ConnState) (e : CEvent) (p : Nat),
      lookupA p (cstep opts jitter s e).1.promiseOutcomes = some true →
      lookupA p s.promiseOutcomes = some true ∨ e = .wsMessage .connected) ∧
    (∀ (opts : ConnOpts) (jitter : ℚ) (s : ConnState) (p : Nat),
      s.wsAttached = true → s.connectPromise = some p →
      lookupA p s.promiseOutcomes = none →
      lookupA p (cstep opts jitter s (.wsMessage .connected)).1.promiseOutcomes =
        some true ∧
      (cstep opts jitter s (.wsMessage .connected)).1.status = .connected) := by
  refine ⟨connConnect_existing, connConnect_immediate, fun _ _ _ => rfl, ?_, ?_⟩
  · intro opts jitter s e p h
    cases e with
    | callConnect =>
      refine Or.inl ?_
      have hf := (connConnect_fields s).1
      rw [show (cstep opts jitter s .callConnect).1 = (connConnect s).1 from rfl,
        hf] at h
      exact h
    | wsOpen => exact Or.inl h
    | wsMessage m =>
      cases m with
      | connected => exact Or.inr rfl
      | message =>
        by_cases hw : s.wsAttached <;> simpa [cstep, hw, connHandleMessage] using h
      | messageUpdated =>
        by_cases hw : s.wsAttached <;> simpa [cstep, hw, connHandleMessage] using h
      | messageAck =>
        by_cases hw : s.wsAttached <;> simpa [cstep, hw, connHandleMessage] using h
      | errorMsg =>
        by_cases hw : s.wsAttached <;> simpa [cstep, hw, connHandleMessage] using h
    | wsClose code =>
      refine Or.inl ?_
      by_cases hw : s.wsAttached
      · simp only [cstep, hw, if_true] at h
        unfold connHandleClose scheduleReconnect at h
        cases hp : s.connectPromise with
        | none =>
          revert h
          by_cases hcond : s.manualClose = false ∧ opts.autoReconnect = true <;>
            by_cases hcap : s.reconnectAttempts ≥ opts.maxReconnectAttempts <;>
              intro h <;> simpa [hp, hcond, hcap] using h
        | some q =>
          revert h
          by_cases hcond : s.manualClose = false ∧ opts.autoReconnect = true <;>
            by_cases hcap : s.reconnectAttempts ≥ opts.maxReconnectAttempts <;>
              intro h <;>
              · simp [hp, hcond, hcap] at h
                rcases lookupA_settle_inv q p false true s.promiseOutcomes h with
                  hres | ⟨_, hfx, _⟩
                · exact hres
                · exact absurd hfx (by simp)
      · simpa [cstep, hw] using h
    | wsError =>
      by_cases hw : s.wsAttached <;> simpa [cstep, hw] using h
    | timerFire =>
      refine Or.inl ?_
      by_cases ht : s.reconnectTimer.isSome
      · simp only [cstep, ht, if_true] at h
        rw [(connConnect_fields _).1] at h
        exact h
      · simpa [cstep, ht] using h
    | callClose =>
      refine Or.inl ?_
      rw [show (cstep opts jitter s .callClose).1 = (connClose s).1 from rfl,
        (connClose_fields s).2.2.2.2.2] at h
      exact h
  · intro opts jitter s p hw hp hnone
    have hstep : (cstep opts jitter s (.wsMessage .connected)).1 =
        connHandleMessage .connected s := by
      simp [cstep, hw]
    rw [hstep]
    unfold connHandleMessage
    simp only [hp]
    constructor
    · exact lookupA_settle_none p true s.promiseOutcomes hnone
    · trivial

theorem connect_idempotent_witness :
    connConnect (connConnect initialConn).1 =
      ((connConnect initialConn).1, .sharedExisting 0, []) ∧
    cstep defaultConnOpts 0 (connConnect initialConn).1 .wsOpen =
      ((connConnect initialConn).1, []) ∧
    connConnect (cstep defaultConnOpts 0 (connConnect initialConn).1
        (.wsMessage .connected)).1 =
      ((cstep defaultConnOpts 0 (connConnect initialConn).1
        (.wsMessage .connected)).1, .immediate, []) ∧
    (lookupA 0 (cstep defaultConnOpts 0 (connConnect initialConn).1
        (.wsMessage .connected)).1.promiseOutcomes = some true ∧
      (cstep defaultConnOpts 0 (connConnect initialConn).1
        (.wsMessage .connected)).1.status = .connected) :=
  ⟨connect_idempotent.1 (connConnect initialConn).1 0 (by rfl),
    connect_idempotent.2.2.1 defaultConnOpts 0 (connConnect initialConn).1,
    connect_idempotent.2.1 (cstep defaultConnOpts 0 (connConnect initialConn).1
        (.wsMessage .connected)).1 (by rfl) (by rfl),
    connect_idempotent.2.2.2.2 defaultConnOpts 0 (connConnect initialConn).1 0
      (by rfl) (by rfl) (by rfl)⟩

/-- C7: `scheduleReconnect` arms no timer at or above the attempt cap and
otherwise arms it with delay `min(base * 2^attempts + jitter, 30000)`; on an
unexpected close (socket attached, not manually closed, auto-reconnect on,
attempts below cap) the retry timer is armed with exactly that delay, while
at or above the cap the close emits no action at all; the attempt counter
changes only by the firing of an armed retry timer (+1) or by a successful
handshake (reset to 0); with the default base of 1000 ms the deterministic
component `base * 2^attempts` is monotone in the attempt number, and the
armed delay never exceeds the 30000 ms cap (hence cap plus bounded jitter). -/
theorem reconnect_backoff :
    (∀ (opts : ConnOpts) (jitter : ℚ) (s : ConnState),
      s.reconnectAttempts ≥ opts.maxReconnectAttempts →
      scheduleReconnect opts jitter s = (s, [])) ∧
    (∀ (opts : ConnOpts) (jitter : ℚ) (s : ConnState),
      s.reconnectAttempts < opts.maxReconnectAttempts →
      scheduleReconnect opts jitter s =
        ({ s with reconnectTimer := some (backoffDelay opts s.reconnectAttempts jitter) },
          [.armTimer (backoffDelay opts s.reconnectAttempts jitter)])) ∧
    (∀ (opts : ConnOpts) (jitter : ℚ) (s : ConnState) (code : Nat),
      s.wsAttached = true → s.manualClose = false → opts.autoReconnect = true →
      s.reconnectAttempts < opts.maxReconnectAttempts →
      (cstep opts jitter s (.wsClose code)).1.reconnectTimer =
        some (backoffDelay opts s.reconnectAttempts jitter) ∧
      CAction.armTimer (backoffDelay opts s.reconnectAttempts jitter) ∈
        (cstep opts jitter s (.wsClose code)).2) ∧
    (∀ (opts : ConnOpts) (jitter : ℚ) (s : ConnState) (code : Nat),
      s.reconnectAttempts ≥ opts.maxReconnectAttempts →
      (cstep opts jitter s (.wsClose code)).2 = []) ∧
    (∀ (opts : ConnOpts) (jitter : ℚ) (s : ConnState) (e : CEvent),
      (cstep opts jitter s e).1.reconnectAttempts = s.reconnectAttempts ∨
      (e = .timerFire ∧ s.reconnectTimer.isSome = true ∧
        (cstep opts jitter s e).1.reconnectAttempts = s.reconnectAttempts + 1) ∨
      (e = .wsMessage .connected ∧
        (cstep opts jitter s e).1.reconnectAttempts = 0)) ∧
    (∀ (opts : ConnOpts) (jitter : ℚ) (s : ConnState),
      s.wsAttached = true →
      (cstep opts jitter s (.wsMessage .connected)).1.reconnectAttempts = 0) ∧
    (∀ a b : Nat, a ≤ b →
      defaultConnOpts.reconnectDelay * 2 ^ a ≤ defaultConnOpts.reconnectDelay * 2 ^ b) ∧
    (∀ (a : Nat) (jitter : ℚ), backoffDelay defaultConnOpts a jitter ≤ 30000) := by
  refine ⟨?_, ?_, ?_, ?_, ?_, ?_, ?_, ?_⟩
  · intro opts jitter s h
    unfold scheduleReconnect
    rw [if_pos h]
  · intro opts jitter s h
    unfold scheduleReconnect
    rw [if_neg (not_le.mpr h)]
  · intro opts jitter s code hw hm hauto hcap
    have hstep : cstep opts jitter s (.wsClose code) = connHandleClose opts jitter s := by
      simp [cstep, hw]
    rw [hstep]
    unfold connHandleClose scheduleReconnect
    cases hp : s.connectPromise <;>
      simp [hm, hauto, hp, not_le.mpr hcap]
  · intro opts jitter s code hcap
    by_cases hw : s.wsAttached
    · have hstep : cstep opts jitter s (.wsClose code) = connHandleClose opts jitter s := by
        simp [cstep, hw]
      rw [hstep]
      unfold connHandleClose scheduleReconnect
      cases hp : s.connectPromise <;>
        by_cases hcond : s.manualClose = false ∧ opts.autoReconnect = true <;>
          simp [hp, hcond, hcap]
    · simp [cstep, hw]
  · intro opts jitter s e
    cases e with
    | callConnect => exact Or.inl (connConnect_fields s).2.2.2
    | wsOpen => exact Or.inl rfl
    | wsMessage m =>
      by_cases hw : s.wsAttached
      · cases m with
        | connected =>
          refine Or.inr (Or.inr ⟨rfl, ?_⟩)
          have hstep : (cstep opts jitter s (.wsMessage .connected)).1 =
              connHandleMessage .connected s := by
            simp [cstep, hw]
          rw [hstep]
          cases hp : s.connectPromise <;> simp [connHandleMessage, hp]
        | message => exact Or.inl (by simp [cstep, hw, connHandleMessage])
        | messageUpdated => exact Or.inl (by simp [cstep, hw, connHandleMessage])
        | messageAck => exact Or.inl (by simp [cstep, hw, connHandleMessage])
        | errorMsg => exact Or.inl (by simp [cstep, hw, connHandleMessage])
      · exact Or.inl (by simp [cstep, hw])
    | wsClose code =>
      refine Or.inl ?_
      by_cases hw : s.wsAttached
      · have hstep : (cstep opts jitter s (.wsClose code)).1 =
            (connHandleClose opts jitter s).1 := by
          simp [cstep, hw]
        rw [hstep]
        exact (connHandleClose_fields opts jitter s).1
      · simp [cstep, hw]
    | wsError =>
      by_cases hw : s.wsAttached
      · exact Or.inl (by simp [cstep, hw])
      · exact Or.inl (by simp [cstep, hw])
    | timerFire =>
      by_cases ht : s.reconnectTimer.isSome
      · refine Or.inr (Or.inl ⟨rfl, ht, ?_⟩)
        have hstep : (cstep opts jitter s .timerFire).1 =
            (connConnect { s with
              reconnectTimer := none,
              reconnectAttempts := s.reconnectAttempts + 1 }).1 := by
          simp [cstep, ht]
        rw [hstep, (connConnect_fields _).2.2.2]
      · exact Or.inl (by simp [cstep, ht])
    | callClose => exact Or.inl (connClose_fields s).2.2.2.2.1
  · intro opts jitter s hw
    have hstep : (cstep opts jitter s (.wsMessage .connected)).1 =
        connHandleMessage .connected s := by
      simp [cstep, hw]
    rw [hstep]
    cases hp : s.connectPromise <;> simp [connHandleMessage, hp]
  · intro a b h
    refine mul_le_mul_of_nonneg_left (pow_le_pow_right₀ (by norm_num) h) ?_
    norm_num [defaultConnOpts]
  · intro a jitter
    exact min_le_right _ _

theorem reconnect_backoff_witness :
    scheduleReconnect defaultConnOpts 500 { initialConn with reconnectAttempts := 5 } =
      ({ initialConn with reconnectAttempts := 5 }, []) ∧
    scheduleReconnect defaultConnOpts 500 initialConn =
      ({ initialConn with reconnectTimer := some (backoffDelay defaultConnOpts 0 500) },
        [.armTimer (backoffDelay defaultConnOpts 0 500)]) ∧
    ((cstep defaultConnOpts 500 (connConnect initialConn).1 (.wsClose 1006)).1.reconnectTimer =
        some (backoffDelay defaultConnOpts 0 500) ∧
      CAction.armTimer (backoffDelay defaultConnOpts 0 500) ∈
        (cstep defaultConnOpts 500 (connConnect initialConn).1 (.wsClose 1006)).2) ∧
    (cstep defaultConnOpts 500 (connConnect initialConn).1
      (.wsMessage .connected)).1.reconnectAttempts = 0 ∧
    defaultConnOpts.reconnectDelay * 2 ^ 2 ≤ defaultConnOpts.reconnectDelay * 2 ^ 3 ∧
    backoffDelay defaultConnOpts 3 500 ≤ 30000 :=
  ⟨reconnect_backoff.1 defaultConnOpts 500 { initialConn with reconnectAttempts := 5 }
      (by decide),
    reconnect_backoff.2.1 defaultConnOpts 500 initialConn (by decide),
    reconnect_backoff.2.2.1 defaultConnOpts 500 (connConnect initialConn).1 1006
      (by rfl) (by rfl) (by rfl) (by decide),
    reconnect_backoff.2.2.2.2.2.1 defaultConnOpts 500 (connConnect initialConn).1
      (by rfl),
    reconnect_backoff.2.2.2.2.2.2.1 2 3 (by decide),
    reconnect_backoff.2.2.2.2.2.2.2 3 500⟩

theorem manualClose_suppression_step (opts : ConnOpts) (jitter : ℚ)
    (s : ConnState) (e : CEvent) (hm : s.manualClose = true)
    (ht : s.reconnectTimer = none) :
    (cstep opts jitter s e).1.manualClose = true ∧
    (cstep opts jitter s e).1.reconnectTimer = none ∧
    ∀ d : ℚ, CAction.armTimer d ∉ (cstep opts jitter s e).2 := by
  cases e with
  | callConnect =>
    refine ⟨?_, ?_, ?_⟩
    · rw [show (cstep opts jitter s .callConnect).1 = (connConnect s).1 from rfl,
        (connConnect_fields s).2.2.1]
      exact hm
    · rw [show (cstep opts jitter s .callConnect).1 = (connConnect s).1 from rfl,
        (connConnect_fields s).2.1]
      exact ht
    · intro d
      show CAction.armTimer d ∉ (connConnect s).2.2
      unfold connConnect
      cases hp : s.connectPromise with
      | some p => exact List.not_mem_nil _
      | none =>
        by_cases hs : s.status = ConnStatus.connected
        · rw [if_pos hs]
          exact List.not_mem_nil _
        · rw [if_neg hs]
          intro hmem
          simp at hmem
  | wsOpen => exact ⟨hm, ht, fun d => List.not_mem_nil _⟩
  | wsMessage m =>
    by_cases hw : s.wsAttached
    · refine ⟨?_, ?_, ?_⟩
      · rw [show (cstep opts jitter s (.wsMessage m)).1 =
          (if s.wsAttached then (connHandleMessage m s, ([] : List CAction))
            else (s, [])).1 from rfl]
        simp only [hw, if_true]
        rw [(connHandleMessage_fields m s).1]
        exact hm
      · rw [show (cstep opts jitter s (.wsMessage m)).1 =
          (if s.wsAttached then (connHandleMessage m s, ([] : List CAction))
            else (s, [])).1 from rfl]
        simp only [hw, if_true]
        rw [(connHandleMessage_fields m s).2]
        exact ht
      · intro d
        simp [cstep, hw]
    · simp only [cstep, hw]
      exact ⟨hm, ht, fun d => List.not_mem_nil _⟩
  | wsClose code =>
    by_cases hw : s.wsAttached
    · have hstep : cstep opts jitter s (.wsClose code) = connHandleClose opts jitter s := by
        simp [cstep, hw]
      rw [hstep]
      unfold connHandleClose scheduleReconnect
      cases hp : s.connectPromise <;> simp [hp, hm, ht]
    · simp only [cstep, hw]
      exact ⟨hm, ht, fun d => List.not_mem_nil _⟩
  | wsError =>
    by_cases hw : s.wsAttached <;> simp [cstep, hw, hm, ht]
  | timerFire =>
    have htf : s.reconnectTimer.isSome = false := by rw [ht]; rfl
    simp only [cstep, htf]
    exact ⟨hm, ht, fun d => List.not_mem_nil _⟩
  | callClose =>
    refine ⟨(connClose_fields s).1, (connClose_fields s).2.1, ?_⟩
    intro d
    show CAction.armTimer d ∉ (connClose s).2
    unfold connClose
    cases htv : s.reconnectTimer <;> by_cases hw : s.wsAttached <;> simp [htv, hw]

theorem manualClose_suppression_run (opts : ConnOpts) (jitter : ℚ)
    (s : ConnState) (evs : List CEvent) (hm : s.manualClose = true)
    (ht : s.reconnectTimer = none) :
    (crun opts jitter s evs).1.manualClose = true ∧
    (crun opts jitter s evs).1.reconnectTimer = none ∧
    ∀ d : ℚ, CAction.armTimer d ∉ (crun opts jitter s evs).2 := by
  induction evs generalizing s with
  | nil => exact ⟨hm, ht, by simp [crun]⟩
  | cons e evs ih =>
    have hstep := manualClose_suppression_step opts jitter s e hm ht
    have hrec := ih (cstep opts jitter s e).1 hstep.1 hstep.2.1
    refine ⟨hrec.1, hrec.2.1, ?_⟩
    intro d
    show CAction.armTimer d ∉
      (cstep opts jitter s e).2 ++ (crun opts jitter (cstep opts jitter s e).1 evs).2
    rw [List.mem_append]
    rintro (hin | hin)
    · exact hstep.2.2 d hin
    · exact hrec.2.2 d hin

/-- C8: `close()` sets the manual-close flag, cancels any armed reconnect
timer, detaches the channel handlers strictly before invoking channel close
(the emitted action trace carries `detachHandlers` at an earlier index than
`closeChannel`), and transitions to `disconnected`; and from the state
`close()` establishes — manual-close set, no armed timer — no later event
sequence ever arms a reconnect timer or clears the flag, so reconnection is
permanently suppressed. -/
theorem close_permanently_suppresses_reconnect :
    (∀ s : ConnState,
      (connClose s).1.manualClose = true ∧
      (connClose s).1.reconnectTimer = none ∧
      (connClose s).1.status = .disconnected ∧
      (connClose s).1.wsAttached = false) ∧
    (∀ s : ConnState, s.wsAttached = true →
      (connClose s).2 =
        (if s.reconnectTimer.isSome then [CAction.cancelTimer] else []) ++
          [CAction.detachHandlers, CAction.closeChannel]) ∧
    (∀ s : ConnState, s.wsAttached = true →
      ∃ i j : Nat, i < j ∧
        (connClose s).2.get? i = some CAction.detachHandlers ∧
        (connClose s).2.get? j = some CAction.closeChannel) ∧
    (∀ (opts : ConnOpts) (jitter : ℚ) (s : ConnState) (evs : List CEvent),
      s.manualClose = true → s.reconnectTimer = none →
      (crun opts jitter s evs).1.manualClose = true ∧
      (crun opts jitter s evs).1.reconnectTimer = none ∧
      ∀ d : ℚ, CAction.armTimer d ∉ (crun opts jitter s evs).2) := by
  refine ⟨?_, ?_, ?_, manualClose_suppression_run⟩
  · intro s
    exact ⟨(connClose_fields s).1, (connClose_fields s).2.1,
      (connClose_fields s).2.2.1, (connClose_fields s).2.2.2.1⟩
  · intro s hw
    unfold connClose
    cases htv : s.reconnectTimer <;> simp [htv, hw]
  · intro s hw
    unfold connClose
    cases htv : s.reconnectTimer with
    | none =>
      refine ⟨0, 1, by decide, ?_, ?_⟩ <;> simp [htv, hw]
    | some d =>
      refine ⟨1, 2, by decide, ?_, ?_⟩ <;> simp [htv, hw]

theorem close_permanently_suppresses_reconnect_witness :
    ((connClose (connConnect initialConn).1).1.manualClose = true ∧
      (connClose (connConnect initialConn).1).1.reconnectTimer = none ∧
      (connClose (connConnect initialConn).1).1.status = .disconnected ∧
      (connClose (connConnect initialConn).1).1.wsAttached = false) ∧
    (connClose (connConnect initialConn).1).2 =
      [CAction.detachHandlers, CAction.closeChannel] ∧
    ((crun defaultConnOpts 500 (connClose (connConnect initialConn).1).1
        [CEvent.callConnect, CEvent.wsClose 1006]).1.manualClose = true ∧
      (crun defaultConnOpts 500 (connClose (connConnect initialConn).1).1
        [CEvent.callConnect, CEvent.wsClose 1006]).1.reconnectTimer = none ∧
      CAction.armTimer (backoffDelay defaultConnOpts 0 500) ∉
        (crun defaultConnOpts 500 (connClose (connConnect initialConn).1).1
          [CEvent.callConnect, CEvent.wsClose 1006]).2) :=
  ⟨close_permanently_suppresses_reconnect.1 (connConnect initialConn).1,
    (close_permanently_suppresses_reconnect.2.1 (connConnect initialConn).1
      (by rfl)).trans (by rfl),
    (close_permanently_suppresses_reconnect.2.2.2 defaultConnOpts 500
      (connClose (connConnect initialConn).1).1
      [CEvent.callConnect, CEvent.wsClose 1006] (by rfl) (by rfl)).1,
    (close_permanently_suppresses_reconnect.2.2.2 defaultConnOpts 500
      (connClose (connConnect initialConn).1).1
      [CEvent.callConnect, CEvent.wsClose 1006] (by rfl) (by rfl)).2.1,
    (close_permanently_suppresses_reconnect.2.2.2 defaultConnOpts 500
      (connClose (connConnect initialConn).1).1
      [CEvent.callConnect, CEvent.wsClose 1006] (by rfl) (by rfl)).2.2
      (backoffDelay defaultConnOpts 0 500)⟩

end Justack
